import Mathlib

/-!
Shallow embedding of `src/python/themachinethatgoesping/gridding/functions/gridfunctions.py`.

Modelling conventions:
* Python floats are modelled as exact rationals (`ℚ`).  Where IEEE NaN semantics
  is the point of a claim (the MinMax scanner and the `v >= 0` validity test),
  a float is `Option ℚ` with `none` playing the role of NaN: every ordered
  comparison involving NaN is false, exactly as in IEEE 754.
* Python exceptions (IndexError from an out-of-range sequence access,
  RuntimeError from the explicit `raise`, AssertionError from `assert`) are
  modelled with `Option`/an explicit error component.  The splat accumulators
  mutate caller-owned grids in place; since on an exception the partial
  mutations persist for the caller, each accumulator returns the grid pair
  together with `Option PErr` (the grids hold every write performed before the
  error).
* Grids are total functions `ℤ × ℤ × ℤ → α`.  All writes the accumulators
  perform are at indices the code has already bounds-checked (skip) or clamped,
  so the finite extent of the numpy arrays does not need to be re-modelled.
* `math.sqrt` forces real numbers: the inverse-distance weights live in `ℝ`.
  The float test `math.sqrt(dr2) <= R` is transcribed as the exactly equivalent
  rational test `0 ≤ R ∧ dr2 ≤ R * R` (since `dr2 ≥ 0`), and the float test
  `dr < min_dr` (with `dr = math.sqrt(dr2)`) as `0 < min_dr ∧ dr2 < min_dr *
  min_dr`, keeping the candidate-cell enumeration executable.
-/

namespace Gridfunctions

/-- A Python float value: `some q` is the finite value `q`, `none` is NaN. -/
abbrev F := Option ℚ

/-- Python `a > b` on floats: false whenever either side is NaN. -/
def fgt : F → F → Bool
  | some a, some b => decide (b < a)
  | _, _ => false

/-- Python `a < b` on floats: false whenever either side is NaN. -/
def flt : F → F → Bool
  | some a, some b => decide (a < b)
  | _, _ => false

/-- Python `v >= 0` on a float: false when `v` is NaN (NaN compares false). -/
def fge0 : F → Bool
  | some a => decide (0 ≤ a)
  | none => false

/-- Modelled from the spec: `helperfunctions.round_int` is not under `src/`;
§4.2 of the spec specifies the nearest-integer index with the rounding
tie-break left open.  We use Mathlib's `round` (round-half-up); no settled
claim evaluates the map at a tie. -/
def round_int (x : ℚ) : ℤ := round x

/-- `get_index` (gridfunctions.py line 75). -/
def get_index (val grd_val_min grd_res : ℚ) : ℤ :=
  round_int ((val - grd_val_min) / grd_res)

/-- `get_index_fraction` (line 80). -/
def get_index_fraction (val grd_val_min grd_res : ℚ) : ℚ :=
  (val - grd_val_min) / grd_res

/-- `get_value` (line 85). -/
def get_value (index : ℤ) (grd_val_min grd_res : ℚ) : ℚ :=
  grd_val_min + grd_res * (index : ℚ)

/-- `get_grd_value` (line 90). -/
def get_grd_value (value grd_val_min grd_res : ℚ) : ℚ :=
  get_value (get_index value grd_val_min grd_res) grd_val_min grd_res

/-- `get_index_vals` (lines 94-148): the trilinear neighbour weight generator.
Python's `x % 1` on finite floats is `Int.fract`. -/
def get_index_vals (fraction_index_x fraction_index_y fraction_index_z : ℚ) :
    List ℤ × List ℤ × List ℤ × List ℚ :=
  let ifraction_x := Int.fract fraction_index_x
  let ifraction_y := Int.fract fraction_index_y
  let ifraction_z := Int.fract fraction_index_z
  let fraction_x := 1 - ifraction_x
  let fraction_y := 1 - ifraction_y
  let fraction_z := 1 - ifraction_z
  let ix1 := ⌊fraction_index_x⌋
  let ix2 := ⌈fraction_index_x⌉
  let iy1 := ⌊fraction_index_y⌋
  let iy2 := ⌈fraction_index_y⌉
  let iz1 := ⌊fraction_index_z⌋
  let iz2 := ⌈fraction_index_z⌉
  let X := [ix1, ix1, ix1, ix1, ix2, ix2, ix2, ix2]
  let Y := [iy1, iy1, iy2, iy2, iy1, iy1, iy2, iy2]
  let Z := [iz1, iz2, iz1, iz2, iz1, iz2, iz1, iz2]
  let vx := 1 * fraction_x
  let vxy := vx * fraction_y
  let vxiy := vx * ifraction_y
  let vix := 1 * ifraction_x
  let vixy := vix * fraction_y
  let vixiy := vix * ifraction_y
  let WEIGHT := [vxy * fraction_z, vxy * ifraction_z,
                 vxiy * fraction_z, vxiy * ifraction_z,
                 vixy * fraction_z, vixy * ifraction_z,
                 vixiy * fraction_z, vixiy * ifraction_z]
  (X, Y, Z, WEIGHT)

/-- `get_index_vals2_sup` (lines 151-188): the 1-D footprint box weight
generator.  When the computed `length = x2 - x1 + 1` is not positive the
source fails (`W[0] = ...` on an empty numpy array is an IndexError in Python;
`np.empty` of a negative length a ValueError), modelled as `none`.  The source
also binds `xm` and `xl`, both dead, omitted here. -/
def get_index_vals2_sup (fraction_index_x_min fraction_index_x_max : ℚ) :
    Option (List ℤ × List ℚ) :=
  let ifraction_x_min := Int.fract fraction_index_x_min
  let ifraction_x_max := Int.fract fraction_index_x_max
  let fraction_x_min := 1 - ifraction_x_min
  let fraction_x_max := 1 - ifraction_x_max
  let p1 : ℤ × ℚ :=
    if ifraction_x_min < 1/2 then (⌊fraction_index_x_min⌋, 1/2 - ifraction_x_min)
    else (⌈fraction_index_x_min⌉, 1/2 + fraction_x_min)
  let p2 : ℤ × ℚ :=
    if 1/2 ≤ fraction_x_max then (⌊fraction_index_x_max⌋, 1/2 + ifraction_x_max)
    else (⌈fraction_index_x_max⌉, 1/2 - fraction_x_max)
  let x1 := p1.1
  let fraction_x1 := p1.2
  let x2 := p2.1
  let fraction_x2 := p2.2
  let length := x2 - x1 + 1
  if 0 < length then
    let n := length.toNat
    let W2 := ((List.replicate n (1 : ℚ)).set 0 fraction_x1).set (n - 1) fraction_x2
    let X := (List.range n).map (fun i => x1 + (i : ℤ))
    let s := W2.sum
    some (X, W2.map (fun w => w / s))
  else none

/-- `get_index_vals2` (lines 193-219): 3-D footprint box generator, the outer
product of three 1-D results in the source's nested-loop order.  A failure of
any 1-D call propagates (the Python exception aborts the call). -/
def get_index_vals2 (fx_min fx_max fy_min fy_max fz_min fz_max : ℚ) :
    Option (List ℤ × List ℤ × List ℤ × List ℚ) :=
  match get_index_vals2_sup fx_min fx_max, get_index_vals2_sup fy_min fy_max,
        get_index_vals2_sup fz_min fz_max with
  | some (X_, WX_), some (Y_, WY_), some (Z_, WZ_) =>
    let q := (X_.zip WX_).flatMap fun xw =>
      (Y_.zip WY_).flatMap fun yw =>
        (Z_.zip WZ_).map fun zw =>
          (xw.1, yw.1, zw.1, xw.2 * yw.2 * zw.2)
    some (q.map (fun e => e.1), q.map (fun e => e.2.1),
          q.map (fun e => e.2.2.1), q.map (fun e => e.2.2.2))
  | _, _, _ => none

/-- Integer `np.arange(a, b)`: the integers from `a` up to but excluding `b`. -/
def irange (a b : ℤ) : List ℤ := (List.range (b - a).toNat).map (fun i => a + (i : ℤ))

/-- The squared distance `dr2 = dx*dx + dy*dy + dz*dz` of
`get_index_vals_inv_dist` (lines 250-258) for the cell `c`. -/
def inv_dist_dr2 (x xmin xres y ymin yres z zmin zres : ℚ) (c : ℤ × ℤ × ℤ) : ℚ :=
  let dx := (x - xmin) - (c.1 : ℚ) * xres
  let dy := (y - ymin) - (c.2.1 : ℚ) * yres
  let dz := (z - zmin) - (c.2.2 : ℚ) * zres
  dx * dx + dy * dy + dz * dz

/-- The accepted index triples of `get_index_vals_inv_dist` (lines 249-266),
in the source's triple-loop order: the candidate box is `np.arange(i_min,
i_max)` per axis — the upper bound excluded — filtered by the distance test
`dr <= R`, transcribed as the equivalent exact `0 ≤ R ∧ dr2 ≤ R * R`. -/
def inv_dist_cells (x xmin xres y ymin yres z zmin zres R : ℚ) : List (ℤ × ℤ × ℤ) :=
  let norm_x := x - xmin
  let norm_y := y - ymin
  let norm_z := z - zmin
  let ix_min := round_int ((norm_x - R) / xres)
  let ix_max := round_int ((norm_x + R) / xres)
  let iy_min := round_int ((norm_y - R) / yres)
  let iy_max := round_int ((norm_y + R) / yres)
  let iz_min := round_int ((norm_z - R) / zres)
  let iz_max := round_int ((norm_z + R) / zres)
  (irange ix_min ix_max).flatMap fun (ix : ℤ) =>
    (irange iy_min iy_max).flatMap fun (iy : ℤ) =>
      (irange iz_min iz_max).filterMap fun (iz : ℤ) =>
        if 0 ≤ R ∧ inv_dist_dr2 x xmin xres y ymin yres z zmin zres (ix, iy, iz) ≤ R * R
        then some (ix, iy, iz) else none

/-- The weight `1/dr` appended for an accepted cell (lines 262-267), with
`dr = math.sqrt(dr2)` floored at `min_dr = R/10`; the float comparison
`dr < min_dr` is transcribed as the equivalent exact
`0 < min_dr ∧ dr2 < min_dr * min_dr`. -/
noncomputable def inv_dist_weight (x xmin xres y ymin yres z zmin zres R : ℚ)
    (c : ℤ × ℤ × ℤ) : ℝ :=
  let min_dr := R / 10
  let dr2 := inv_dist_dr2 x xmin xres y ymin yres z zmin zres c
  if 0 < min_dr ∧ dr2 < min_dr * min_dr then ((1 / min_dr : ℚ) : ℝ)
  else 1 / Real.sqrt (dr2 : ℝ)

/-- `get_index_vals_inv_dist` (lines 222-276): inverse-distance neighbourhood
generator.  The source appends `ix, iy, iz, 1/dr` inside one triple loop; here
the accepted index triples are collected first (`inv_dist_cells`, same order)
and the four parallel output lists are read off them — the same values in the
same order. -/
noncomputable def get_index_vals_inv_dist (x xmin xres y ymin yres z zmin zres R : ℚ) :
    List ℤ × List ℤ × List ℤ × List ℝ :=
  let cells := inv_dist_cells x xmin xres y ymin yres z zmin zres R
  (cells.map (fun c => c.1), cells.map (fun c => c.2.1),
   cells.map (fun c => c.2.2),
   cells.map (inv_dist_weight x xmin xres y ymin yres z zmin zres R))

/-! ### The MinMax scanner -/

/-- One `if not x > minx: minx = x` update of `get_minmax` (lines 56-57). -/
def mm_min_step (minv x : F) : F := if fgt x minv then minv else x

/-- One `if not x < maxx: maxx = x` update of `get_minmax` (lines 58-59). -/
def mm_max_step (maxv x : F) : F := if flt x maxv then maxv else x

/-- The six running extrema, in the source's return order
`(minx, maxx, miny, maxy, minz, maxz)`. -/
abbrev MM := F × F × F × F × F × F

/-- The body of `get_minmax`'s loop for one `(x, (y, z))` triple. -/
def minmax_step (m : MM) (p : F × F × F) : MM :=
  (mm_min_step m.1 p.1, mm_max_step m.2.1 p.1,
   mm_min_step m.2.2.1 p.2.1, mm_max_step m.2.2.2.1 p.2.1,
   mm_min_step m.2.2.2.2.1 p.2.2, mm_max_step m.2.2.2.2.2 p.2.2)

/-- `get_minmax` (lines 19-69).  The `assert` on the three lengths is modelled
as `none`; with the lengths equal, the index loop is the fold over the zip.
All six extrema start as NaN. -/
def get_minmax (sx sy sz : List F) : Option MM :=
  if sx.length = sy.length ∧ sy.length = sz.length then
    some (((sx.zip sy).zip sz).foldl
      (fun m p => minmax_step m (p.1.1, p.1.2, p.2))
      (none, none, none, none, none, none))
  else none

/-! ### Grids, bounds policy and the splat accumulators -/

/-- A caller-owned dense accumulator grid, as a total assignment of cells. -/
def Grid (α : Type) : Type := ℤ × ℤ × ℤ → α

/-- Write one cell of a grid. -/
def gupd {α : Type} (g : Grid α) (c : ℤ × ℤ × ℤ) (q : α) : Grid α :=
  fun c' => if c' = c then q else g c'

/-- The Python exceptions the accumulators can raise. -/
inductive PErr where
  | indexError : PErr
  | runtimeError : PErr
deriving DecidableEq

/-- One axis of the `skip_invalid=False` clamp (e.g. lines 457-458 with
464-465): first `if ix < 0: ix = 0`, then `if abs(ix) >= nx: ix = nx - 1`. -/
def clamp_index (i n : ℤ) : ℤ :=
  let i := if i < 0 then 0 else i
  if n ≤ |i| then n - 1 else i

/-- The bounds policy block shared verbatim by all three accumulators
(lines 456-483, 400-427, 314-341): `skip_invalid=False` clamps every axis,
`skip_invalid=True` drops the sub-contribution (`none`) as soon as some axis
index is negative or has absolute value at least the axis count. -/
def bounds_resolve (skip_invalid : Bool) (nx ny nz ix iy iz : ℤ) :
    Option (ℤ × ℤ × ℤ) :=
  if ¬skip_invalid then
    some (clamp_index ix nx, clamp_index iy ny, clamp_index iz nz)
  else
    if ix < 0 ∨ iy < 0 ∨ iz < 0 ∨ nx ≤ |ix| ∨ ny ≤ |iy| ∨ nz ≤ |iz| then none
    else some (ix, iy, iz)

/-- The body of the weighted inner loops of `get_sampled_image2` and
`get_sampled_image_inv_dist` for one `(ix, iy, iz, w)` entry (lines 391-432):
skip a zero weight, resolve bounds, and if `v >= 0` add `v * w` to the
value-sum grid and `w` to the weight-sum grid.  State is `(imagesum,
imagenum)`. -/
def splat_sub (skip_invalid : Bool) (nx ny nz : ℤ) (v : F) (ix iy iz : ℤ)
    (w : ℚ) (gs : Grid ℚ × Grid ℚ) : Grid ℚ × Grid ℚ :=
  if w = 0 then gs
  else
    match bounds_resolve skip_invalid nx ny nz ix iy iz with
    | none => gs
    | some c =>
      if fge0 v then
        (gupd gs.1 c (gs.1 c + v.getD 0 * w), gupd gs.2 c (gs.2 c + w))
      else gs

/-- The same inner-loop body for `get_sampled_image_inv_dist`, whose weights
are real (they involve `math.sqrt`). -/
noncomputable def splat_sub_r (skip_invalid : Bool) (nx ny nz : ℤ) (v : F)
    (ix iy iz : ℤ) (w : ℝ) (gs : Grid ℝ × Grid ℝ) : Grid ℝ × Grid ℝ :=
  if w = 0 then gs
  else
    match bounds_resolve skip_invalid nx ny nz ix iy iz with
    | none => gs
    | some c =>
      if fge0 v then
        (gupd gs.1 c (gs.1 c + (v.getD 0 : ℝ) * w), gupd gs.2 c (gs.2 c + w))
      else gs

/-- Zip the four parallel generator outputs into the entry list the inner
loops iterate over (the source indexes the four arrays, equal-length by
construction, with one counter). -/
def zip4 {α β : Type} (X Y Z : List α) (W : List β) : List ((α × α × α) × β) :=
  (X.zip (Y.zip Z)).zip W

/-- The weighted inner loop `for i_ in range(len(IX))` of
`get_sampled_image2`. -/
def splat_fold (skip_invalid : Bool) (nx ny nz : ℤ) (v : F)
    (entries : List ((ℤ × ℤ × ℤ) × ℚ)) (gs : Grid ℚ × Grid ℚ) :
    Grid ℚ × Grid ℚ :=
  entries.foldl
    (fun gs e => splat_sub skip_invalid nx ny nz v e.1.1 e.1.2.1 e.1.2.2 e.2 gs) gs

/-- The weighted inner loop of `get_sampled_image_inv_dist`. -/
noncomputable def splat_fold_r (skip_invalid : Bool) (nx ny nz : ℤ) (v : F)
    (entries : List ((ℤ × ℤ × ℤ) × ℝ)) (gs : Grid ℝ × Grid ℝ) :
    Grid ℝ × Grid ℝ :=
  entries.foldl
    (fun gs e => splat_sub_r skip_invalid nx ny nz v e.1.1 e.1.2.1 e.1.2.2 e.2 gs) gs

/-- Reading `sx[i], sy[i], sz[i], sv[i]` at the top of each accumulator loop
(e.g. lines 446-450); a missing index is Python's IndexError. -/
def sample_read (sx sy sz : List ℚ) (sv : List F) (i : ℕ) :
    Option (ℚ × ℚ × ℚ × F) :=
  match sx[i]?, sy[i]?, sz[i]?, sv[i]? with
  | some x, some y, some z, some v => some (x, y, z, v)
  | _, _, _, _ => none

/-- The driver every accumulator shares: `for i in range(len(sx))`, reading
the sample, running the per-sample body, stopping at the first exception and
returning the grids as mutated so far together with the error. -/
def run_samples {σ : Type} (read : ℕ → Option (ℚ × ℚ × ℚ × F))
    (body : ℕ → ℚ × ℚ × ℚ × F → σ → σ × Option PErr) :
    List ℕ → σ → σ × Option PErr
  | [], g => (g, none)
  | i :: rest, g =>
    match read i with
    | none => (g, some .indexError)
    | some a =>
      match body i a g with
      | (g', none) => run_samples read body rest g'
      | (g', some e) => (g', some e)

/-- The loop body of `get_sampled_image` (lines 446-487) for one sample:
nearest cell via `get_index`, bounds policy, then `v` and `1` accumulated when
`v >= 0`.  Never raises. -/
def image_body (xmin xres : ℚ) (nx : ℤ) (ymin yres : ℚ) (ny : ℤ)
    (zmin zres : ℚ) (nz : ℤ) (skip_invalid : Bool) (_i : ℕ)
    (s : ℚ × ℚ × ℚ × F) (gs : Grid ℚ × Grid ℚ) :
    (Grid ℚ × Grid ℚ) × Option PErr :=
  let ix := get_index s.1 xmin xres
  let iy := get_index s.2.1 ymin yres
  let iz := get_index s.2.2.1 zmin zres
  let v := s.2.2.2
  (match bounds_resolve skip_invalid nx ny nz ix iy iz with
   | none => gs
   | some c =>
     if fge0 v then
       (gupd gs.1 c (gs.1 c + v.getD 0), gupd gs.2 c (gs.2 c + 1))
     else gs,
   none)

/-- `get_sampled_image` (lines 437-489).  Parameters follow the source;
the returned pair is `(imagesum, imagenum)` as in the source's return. -/
def get_sampled_image (sx sy sz : List ℚ) (sv : List F) (xmin xres : ℚ)
    (nx : ℤ) (ymin yres : ℚ) (ny : ℤ) (zmin zres : ℚ) (nz : ℤ)
    (imagenum imagesum : Grid ℚ) (skip_invalid : Bool) :
    (Grid ℚ × Grid ℚ) × Option PErr :=
  run_samples (sample_read sx sy sz sv)
    (image_body xmin xres nx ymin yres ny zmin zres nz skip_invalid)
    (List.range sx.length) (imagesum, imagenum)

/-- The loop body of `get_sampled_image2` (lines 362-432) for one sample:
trilinear generator when no extent is given, otherwise the extent length
check (`raise RuntimeError` at line 377) and the footprint box generator,
then the weighted inner loop. -/
def image2_body (xmin xres : ℚ) (nx : ℤ) (ymin yres : ℚ) (ny : ℤ)
    (zmin zres : ℚ) (nz : ℤ) (extent : Option (List ℚ)) (skip_invalid : Bool)
    (i : ℕ) (s : ℚ × ℚ × ℚ × F) (gs : Grid ℚ × Grid ℚ) :
    (Grid ℚ × Grid ℚ) × Option PErr :=
  let x := s.1
  let y := s.2.1
  let z := s.2.2.1
  let v := s.2.2.2
  match extent with
  | none =>
    let r := get_index_vals (get_index_fraction x xmin xres)
      (get_index_fraction y ymin yres) (get_index_fraction z zmin zres)
    (splat_fold skip_invalid nx ny nz v (zip4 r.1 r.2.1 r.2.2.1 r.2.2.2) gs, none)
  | some ext =>
    match ext[i]? with
    | none => (gs, some .runtimeError)
    | some e =>
      let length_2 := e / 2
      match get_index_vals2
          (get_index_fraction (x - length_2) xmin xres)
          (get_index_fraction (x + length_2) xmin xres)
          (get_index_fraction (y - length_2) ymin yres)
          (get_index_fraction (y + length_2) ymin yres)
          (get_index_fraction (z - length_2) zmin zres)
          (get_index_fraction (z + length_2) zmin zres) with
      | none => (gs, some .indexError)
      | some r =>
        (splat_fold skip_invalid nx ny nz v (zip4 r.1 r.2.1 r.2.2.1 r.2.2.2) gs,
         none)

/-- `get_sampled_image2` (lines 352-434). -/
def get_sampled_image2 (sx sy sz : List ℚ) (sv : List F) (xmin xres : ℚ)
    (nx : ℤ) (ymin yres : ℚ) (ny : ℤ) (zmin zres : ℚ) (nz : ℤ)
    (imagenum imagesum : Grid ℚ) (extent : Option (List ℚ))
    (skip_invalid : Bool) : (Grid ℚ × Grid ℚ) × Option PErr :=
  run_samples (sample_read sx sy sz sv)
    (image2_body xmin xres nx ymin yres ny zmin zres nz extent skip_invalid)
    (List.range sx.length) (imagesum, imagenum)

/-- The loop body of `get_sampled_image_inv_dist` (lines 289-346) for one
sample: the radius length check (`raise RuntimeError` at line 297), the
inverse-distance generator, then the weighted inner loop. -/
noncomputable def inv_dist_body (xmin xres : ℚ) (nx : ℤ) (ymin yres : ℚ)
    (ny : ℤ) (zmin zres : ℚ) (nz : ℤ) (radius : List ℚ) (skip_invalid : Bool)
    (i : ℕ) (s : ℚ × ℚ × ℚ × F) (gs : Grid ℝ × Grid ℝ) :
    (Grid ℝ × Grid ℝ) × Option PErr :=
  match radius[i]? with
  | none => (gs, some .runtimeError)
  | some r =>
    let g := get_index_vals_inv_dist s.1 xmin xres s.2.1 ymin yres s.2.2.1
      zmin zres r
    (splat_fold_r skip_invalid nx ny nz s.2.2.2
      (zip4 g.1 g.2.1 g.2.2.1 g.2.2.2) gs, none)

/-- `get_sampled_image_inv_dist` (lines 279-348). -/
noncomputable def get_sampled_image_inv_dist (sx sy sz : List ℚ) (sv : List F)
    (xmin xres : ℚ) (nx : ℤ) (ymin yres : ℚ) (ny : ℤ) (zmin zres : ℚ)
    (nz : ℤ) (imagenum imagesum : Grid ℝ) (radius : List ℚ)
    (skip_invalid : Bool) : (Grid ℝ × Grid ℝ) × Option PErr :=
  run_samples (sample_read sx sy sz sv)
    (inv_dist_body xmin xres nx ymin yres ny zmin zres nz radius skip_invalid)
    (List.range sx.length) (imagesum, imagenum)

/-! ### Helper lemmas -/

/-- A product of three factors from `[0,1]` lies in `[0,1]`. -/
lemma mul3_unit {a b c : ℚ} (ha : 0 ≤ a) (ha1 : a ≤ 1) (hb : 0 ≤ b)
    (hb1 : b ≤ 1) (hc : 0 ≤ c) (hc1 : c ≤ 1) : 0 ≤ a * b * c ∧ a * b * c ≤ 1 := by
  constructor
  · exact mul_nonneg (mul_nonneg ha hb) hc
  · have hab : a * b ≤ 1 := by nlinarith
    nlinarith [mul_nonneg ha hb]

/-! ### C5: the trilinear neighbour weight generator -/

/-- C5: for every triple of fractional indices, `get_index_vals` returns
exactly 8 corner entries: the index lists enumerate floor/ceil per axis in
outer-product order, the weight list is the outer product of the per-axis
weights `(1 - f, f)` with `f` the fractional part, the 8 weights sum to
exactly 1 (hence to 1.0 within 1e-9), each weight lies in `[0,1]`, and on an
axis with zero fractional part the duplicate floor = ceil entries are still
all 8 present (the lists always have length 8, never merged). -/
theorem trilinear_weights_spec (fx fy fz : ℚ) :
    (get_index_vals fx fy fz).1.length = 8 ∧
    (get_index_vals fx fy fz).2.1.length = 8 ∧
    (get_index_vals fx fy fz).2.2.1.length = 8 ∧
    (get_index_vals fx fy fz).2.2.2.length = 8 ∧
    (get_index_vals fx fy fz).1 =
      [⌊fx⌋, ⌊fx⌋, ⌊fx⌋, ⌊fx⌋, ⌈fx⌉, ⌈fx⌉, ⌈fx⌉, ⌈fx⌉] ∧
    (get_index_vals fx fy fz).2.1 =
      [⌊fy⌋, ⌊fy⌋, ⌈fy⌉, ⌈fy⌉, ⌊fy⌋, ⌊fy⌋, ⌈fy⌉, ⌈fy⌉] ∧
    (get_index_vals fx fy fz).2.2.1 =
      [⌊fz⌋, ⌈fz⌉, ⌊fz⌋, ⌈fz⌉, ⌊fz⌋, ⌈fz⌉, ⌊fz⌋, ⌈fz⌉] ∧
    (get_index_vals fx fy fz).2.2.2 =
      [(1 - Int.fract fx) * (1 - Int.fract fy) * (1 - Int.fract fz),
       (1 - Int.fract fx) * (1 - Int.fract fy) * Int.fract fz,
       (1 - Int.fract fx) * Int.fract fy * (1 - Int.fract fz),
       (1 - Int.fract fx) * Int.fract fy * Int.fract fz,
       Int.fract fx * (1 - Int.fract fy) * (1 - Int.fract fz),
       Int.fract fx * (1 - Int.fract fy) * Int.fract fz,
       Int.fract fx * Int.fract fy * (1 - Int.fract fz),
       Int.fract fx * Int.fract fy * Int.fract fz] ∧
    (get_index_vals fx fy fz).2.2.2.sum = 1 ∧
    ∀ w ∈ (get_index_vals fx fy fz).2.2.2, 0 ≤ w ∧ w ≤ 1 := by
  have h0x := Int.fract_nonneg fx
  have h0y := Int.fract_nonneg fy
  have h0z := Int.fract_nonneg fz
  have h1x := le_of_lt (Int.fract_lt_one fx)
  have h1y := le_of_lt (Int.fract_lt_one fy)
  have h1z := le_of_lt (Int.fract_lt_one fz)
  refine ⟨rfl, rfl, rfl, rfl, rfl, rfl, rfl, ?_, ?_, ?_⟩
  · simp only [get_index_vals]
    refine congrArg₂ _ (by ring) (congrArg₂ _ (by ring) (congrArg₂ _ (by ring)
      (congrArg₂ _ (by ring) (congrArg₂ _ (by ring) (congrArg₂ _ (by ring)
      (congrArg₂ _ (by ring) (congrArg₂ _ (by ring) rfl)))))))
  · simp only [get_index_vals, List.sum_cons, List.sum_nil]
    ring
  · intro w hw
    simp only [get_index_vals, List.mem_cons, List.not_mem_nil, or_false] at hw
    rcases hw with h | h | h | h | h | h | h | h <;> subst h <;>
      exact mul3_unit (by linarith) (by linarith) (by linarith) (by linarith)
        (by linarith) (by linarith)

/-- Witness for C5 at the concrete fractional indices `(1/4, 1/2, 0)`
(the last axis exercising the duplicate floor = ceil case). -/
theorem trilinear_weights_spec_witness :
    (get_index_vals (1/4) (1/2) 0).2.2.2.sum = 1 ∧
    ∀ w ∈ (get_index_vals (1/4) (1/2) 0).2.2.2, 0 ≤ w ∧ w ≤ 1 :=
  ⟨(trilinear_weights_spec (1/4) (1/2) 0).2.2.2.2.2.2.2.2.1,
   (trilinear_weights_spec (1/4) (1/2) 0).2.2.2.2.2.2.2.2.2⟩

/-! ### C4: the 1-D footprint box weight generator -/

/-- Dividing every entry of a list divides its sum. -/
lemma sum_map_div (l : List ℚ) (s : ℚ) :
    (l.map (fun w => w / s)).sum = l.sum / s := by
  induction l with
  | nil => simp
  | cons a t ih => simp [ih, add_div]

/-- Sum of an all-ones list with the last entry replaced. -/
lemma sum_replicate_set_last (k : ℕ) (f : ℚ) :
    ((List.replicate (k + 1) (1 : ℚ)).set k f).sum = k + f := by
  induction k with
  | zero => simp
  | succ m ih =>
    rw [List.replicate_succ, List.set_cons_succ, List.sum_cons, ih]
    push_cast
    ring

/-- The pre-normalization footprint box weight vector has positive sum when
its two edge weights are positive. -/
lemma box_weights_sum_pos (n : ℕ) (hn : 1 ≤ n) (f1 f2 : ℚ) (h1 : 0 < f1)
    (h2 : 0 < f2) :
    0 < ((((List.replicate n (1 : ℚ)).set 0 f1).set (n - 1) f2)).sum := by
  match n, hn with
  | 1, _ => simp [h2]
  | (m + 2), _ =>
    rw [List.replicate_succ, List.set_cons_zero, show m + 2 - 1 = m + 1 by omega,
      List.set_cons_succ, List.sum_cons, sum_replicate_set_last]
    have : (0 : ℚ) ≤ m := by positivity
    linarith

/-- Counterexample to C4 as stated: the interval `[1/2, 1/2]` satisfies
`lo ≤ hi`, yet `get_index_vals2_sup` fails on it (the snapped edge indices
come out as `x1 = 1 > 0 = x2`, so `length = 0` and the source's `W[0] = ...`
is an out-of-bounds write), instead of returning a weight vector of length
`≥ 1` summing to 1. -/
theorem box1d_weights_counterexample :
    (1 : ℚ)/2 ≤ 1/2 ∧ get_index_vals2_sup (1/2) (1/2) = none := by
  refine ⟨le_refl _, ?_⟩
  have hc : (⌈(1:ℚ)/2⌉ : ℤ) = 1 := by
    rw [Int.ceil_eq_iff]
    norm_num
  norm_num [get_index_vals2_sup, Int.fract, hc]

/-- C4 as amended: for `lo ≤ hi`, except in the single degenerate case
`lo = hi` with fractional part exactly `1/2` (where the call fails, see the
counterexample), `get_index_vals2_sup` returns consecutive ordered integer
indices `x1, x1+1, ..., x1+n-1` with `n ≥ 1`, and the weight vector is the
all-ones vector with the two edge entries replaced by positive fractional
coverages, renormalized to sum exactly 1 (hence within 1e-9 of 1.0). -/
theorem box1d_weights_amended (lo hi : ℚ) (hle : lo ≤ hi)
    (hdeg : ¬(lo = hi ∧ Int.fract lo = 1/2)) :
    ∃ (n : ℕ) (x1 : ℤ) (f1 f2 : ℚ) (W : List ℚ),
      get_index_vals2_sup lo hi =
        some ((List.range n).map (fun i => x1 + (i : ℤ)), W) ∧
      1 ≤ n ∧ W.length = n ∧ 0 < f1 ∧ 0 < f2 ∧
      W = (((List.replicate n (1:ℚ)).set 0 f1).set (n-1) f2).map
        (fun w => w / ((((List.replicate n (1:ℚ)).set 0 f1).set (n-1) f2)).sum) ∧
      W.sum = 1 := by
  have hfl0 : 0 ≤ Int.fract lo := Int.fract_nonneg lo
  have hfl1 : Int.fract lo < 1 := Int.fract_lt_one lo
  have hfh0 : 0 ≤ Int.fract hi := Int.fract_nonneg hi
  have hfh1 : Int.fract hi < 1 := Int.fract_lt_one hi
  have hlo_eq : lo = (⌊lo⌋ : ℚ) + Int.fract lo := by
    rw [Int.fract]; ring
  have hhi_eq : hi = (⌊hi⌋ : ℚ) + Int.fract hi := by
    rw [Int.fract]; ring
  have hfloor : ⌊lo⌋ ≤ ⌊hi⌋ := Int.floor_le_floor hle
  -- the four snapping branches
  simp only [get_index_vals2_sup]
  by_cases hc1 : Int.fract lo < 1/2 <;> by_cases hc2 : 1/2 ≤ 1 - Int.fract hi <;>
    simp only [hc1, hc2, if_true, if_false, ite_true, ite_false]
  · -- x1 = ⌊lo⌋, x2 = ⌊hi⌋
    have hx : ⌊lo⌋ ≤ ⌊hi⌋ := hfloor
    have hpos : (0:ℤ) < ⌊hi⌋ - ⌊lo⌋ + 1 := by omega
    rw [if_pos hpos]
    refine ⟨(⌊hi⌋ - ⌊lo⌋ + 1).toNat, ⌊lo⌋, 1/2 - Int.fract lo,
      1/2 + Int.fract hi, _, rfl, by omega, by simp, by linarith, by linarith,
      rfl, ?_⟩
    rw [sum_map_div, div_self]
    exact ne_of_gt (box_weights_sum_pos _ (by omega) _ _ (by linarith) (by linarith))
  · -- x1 = ⌊lo⌋, x2 = ⌈hi⌉
    have hx : ⌊lo⌋ ≤ ⌈hi⌉ := le_trans hfloor (Int.floor_le_ceil hi)
    have hpos : (0:ℤ) < ⌈hi⌉ - ⌊lo⌋ + 1 := by omega
    rw [if_pos hpos]
    refine ⟨(⌈hi⌉ - ⌊lo⌋ + 1).toNat, ⌊lo⌋, 1/2 - Int.fract lo,
      1/2 - (1 - Int.fract hi), _, rfl, by omega, by simp, by linarith, by linarith,
      rfl, ?_⟩
    rw [sum_map_div, div_self]
    exact ne_of_gt (box_weights_sum_pos _ (by omega) _ _ (by linarith) (by linarith))
  · -- x1 = ⌈lo⌉, x2 = ⌊hi⌋: the interesting case
    have hge : 1/2 ≤ Int.fract lo := le_of_not_lt hc1
    have hlow : (⌊lo⌋ : ℚ) < lo := by linarith [hlo_eq]
    have hlc : ⌊lo⌋ < ⌈lo⌉ := Int.lt_ceil.mpr hlow
    have hcu : ⌈lo⌉ ≤ ⌊lo⌋ + 1 := Int.ceil_le_floor_add_one lo
    have hx : ⌈lo⌉ ≤ ⌊hi⌋ := by
      by_contra hcon
      have hfe : ⌊hi⌋ = ⌊lo⌋ := by omega
      have hdiff : Int.fract hi - Int.fract lo = hi - lo := by
        rw [Int.fract, Int.fract, hfe]; ring
      have hge : Int.fract lo ≤ Int.fract hi := by
        have : lo ≤ hi := hle
        linarith
      have hfl : Int.fract lo = 1/2 := by linarith
      have hfh : Int.fract hi = 1/2 := by linarith
      have : lo = hi := by
        rw [hlo_eq, hhi_eq, hfe, hfl, hfh]
      exact hdeg ⟨this, hfl⟩
    have hpos : (0:ℤ) < ⌊hi⌋ - ⌈lo⌉ + 1 := by omega
    rw [if_pos hpos]
    refine ⟨(⌊hi⌋ - ⌈lo⌉ + 1).toNat, ⌈lo⌉, 1/2 + (1 - Int.fract lo),
      1/2 + Int.fract hi, _, rfl, by omega, by simp, by linarith, by linarith,
      rfl, ?_⟩
    rw [sum_map_div, div_self]
    exact ne_of_gt (box_weights_sum_pos _ (by omega) _ _ (by linarith) (by linarith))
  · -- x1 = ⌈lo⌉, x2 = ⌈hi⌉
    have hx : ⌈lo⌉ ≤ ⌈hi⌉ := Int.ceil_le_ceil hle
    have hpos : (0:ℤ) < ⌈hi⌉ - ⌈lo⌉ + 1 := by omega
    rw [if_pos hpos]
    refine ⟨(⌈hi⌉ - ⌈lo⌉ + 1).toNat, ⌈lo⌉, 1/2 + (1 - Int.fract lo),
      1/2 - (1 - Int.fract hi), _, rfl, by omega, by simp, by linarith, by linarith,
      rfl, ?_⟩
    rw [sum_map_div, div_self]
    exact ne_of_gt (box_weights_sum_pos _ (by omega) _ _ (by linarith) (by linarith))

/-- Witness for the amended C4 at the concrete interval `[0, 1/2]`. -/
theorem box1d_weights_amended_witness :
    (0 : ℚ) ≤ 1/2 ∧ ¬((0:ℚ) = 1/2 ∧ Int.fract (0:ℚ) = 1/2) ∧
    ∃ (n : ℕ) (x1 : ℤ) (f1 f2 : ℚ) (W : List ℚ),
      get_index_vals2_sup 0 (1/2) =
        some ((List.range n).map (fun i => x1 + (i : ℤ)), W) ∧
      1 ≤ n ∧ W.length = n ∧ 0 < f1 ∧ 0 < f2 ∧
      W = (((List.replicate n (1:ℚ)).set 0 f1).set (n-1) f2).map
        (fun w => w / ((((List.replicate n (1:ℚ)).set 0 f1).set (n-1) f2)).sum) ∧
      W.sum = 1 :=
  ⟨by norm_num, by norm_num,
   box1d_weights_amended 0 (1/2) (by norm_num) (by norm_num)⟩

/-! ### C1: the inverse-distance neighbourhood generator -/

/-- Euclidean distance from a sample to a grid-cell center, the claim's
notion of distance (the argument of `math.sqrt` kept as one exact rational). -/
noncomputable def cell_dist (x y z cx cy cz : ℚ) : ℝ :=
  Real.sqrt (((x - cx) * (x - cx) + (y - cy) * (y - cy) + (z - cz) * (z - cz) : ℚ) : ℝ)

/-- The squared distance is a sum of squares. -/
lemma inv_dist_dr2_nonneg (x xmin xres y ymin yres z zmin zres : ℚ) (c : ℤ × ℤ × ℤ) :
    0 ≤ inv_dist_dr2 x xmin xres y ymin yres z zmin zres c := by
  simp only [inv_dist_dr2]
  nlinarith [mul_self_nonneg ((x - xmin) - (c.1 : ℚ) * xres),
    mul_self_nonneg ((y - ymin) - (c.2.1 : ℚ) * yres),
    mul_self_nonneg ((z - zmin) - (c.2.2 : ℚ) * zres)]

/-- Every accepted cell passed the (transcribed) filter `dr ≤ R`. -/
lemma inv_dist_cells_mem (x xmin xres y ymin yres z zmin zres R : ℚ)
    (c : ℤ × ℤ × ℤ) (hc : c ∈ inv_dist_cells x xmin xres y ymin yres z zmin zres R) :
    0 ≤ R ∧ inv_dist_dr2 x xmin xres y ymin yres z zmin zres c ≤ R * R := by
  simp only [inv_dist_cells, List.mem_flatMap, List.mem_filterMap] at hc
  obtain ⟨ix, _, iy, _, iz, _, hif⟩ := hc
  by_cases hcond :
      0 ≤ R ∧ inv_dist_dr2 x xmin xres y ymin yres z zmin zres (ix, iy, iz) ≤ R * R
  · rw [if_pos hcond] at hif
    obtain rfl := Option.some.inj hif
    exact hcond
  · rw [if_neg hcond] at hif
    exact absurd hif (by simp)

/-- Distance from the sample to the center of cell `c` is the square root of
the source's `dr2` (an identity of the exact rational radicands). -/
lemma cell_dist_eq (x xmin xres y ymin yres z zmin zres : ℚ) (c : ℤ × ℤ × ℤ) :
    cell_dist x y z (get_value c.1 xmin xres) (get_value c.2.1 ymin yres)
      (get_value c.2.2 zmin zres) =
    Real.sqrt ((inv_dist_dr2 x xmin xres y ymin yres z zmin zres c : ℚ) : ℝ) := by
  unfold cell_dist inv_dist_dr2 get_value
  congr 1
  push_cast
  ring

/-- Counterexample to C1 as stated: for the sample `(2/5, 0, 0)` with grid
minima 0, resolutions 1 and radius `R = 1`, the cell `(1, 0, 0)` has its
center `(get_value 1 0 1, 0, 0) = (1, 0, 0)` at Euclidean distance
`3/5 ≤ R` from the sample, yet `get_index_vals_inv_dist` does not return it:
the only returned x-index is 0 (the candidate enumeration `np.arange(ix_min,
ix_max)` excludes the upper bound `ix_max = 1`), so the generator does not
return every cell whose center lies within distance `R`. -/
theorem inv_dist_counterexample :
    cell_dist (2/5) 0 0 (get_value 1 0 1) (get_value 0 0 1) (get_value 0 0 1) ≤ (1 : ℝ) ∧
    (get_index_vals_inv_dist (2/5) 0 1 0 0 1 0 0 1 1).1 = [0] ∧
    (1 : ℤ) ∉ (get_index_vals_inv_dist (2/5) 0 1 0 0 1 0 0 1 1).1 := by
  have hX : (get_index_vals_inv_dist (2/5) 0 1 0 0 1 0 0 1 1).1 = [0] := by
    have hir : irange (-1) 1 = [-1, 0] := rfl
    simp only [get_index_vals_inv_dist, inv_dist_cells, inv_dist_dr2, round_int]
    norm_num [round_eq]
    norm_num [hir, List.flatMap_cons, List.flatMap_nil, List.filterMap_cons,
      List.map_cons, List.map_nil, List.append_nil, List.cons_append,
      List.nil_append]
  refine ⟨?_, hX, by rw [hX]; decide⟩
  have : cell_dist (2/5) 0 0 (get_value 1 0 1) (get_value 0 0 1) (get_value 0 0 1) =
      Real.sqrt (((9 : ℚ)/25 : ℚ) : ℝ) := by
    unfold cell_dist get_value
    norm_num
  rw [this]
  rw [show (((9 : ℚ)/25 : ℚ) : ℝ) = (3/5 : ℝ)^2 by push_cast; norm_num]
  rw [Real.sqrt_sq (by norm_num)]
  norm_num

/-- C1 as amended: for every sample, grid geometry and radius `R > 0`,
every entry `get_index_vals_inv_dist` does return has its cell center within
Euclidean distance `R` of the sample, and its weight is exactly
`1 / max(distance, R/10)` — the weight vector is the raw reciprocal list,
not normalized.  (The converse inclusion of the original claim is false: the
candidate enumeration excludes the upper-bound index per axis, see the
counterexample.) -/
theorem inv_dist_within_radius (x xmin xres y ymin yres z zmin zres R : ℚ)
    (hR : 0 < R) :
    (get_index_vals_inv_dist x xmin xres y ymin yres z zmin zres R).1.length =
      (get_index_vals_inv_dist x xmin xres y ymin yres z zmin zres R).2.2.2.length ∧
    (get_index_vals_inv_dist x xmin xres y ymin yres z zmin zres R).2.1.length =
      (get_index_vals_inv_dist x xmin xres y ymin yres z zmin zres R).2.2.2.length ∧
    (get_index_vals_inv_dist x xmin xres y ymin yres z zmin zres R).2.2.1.length =
      (get_index_vals_inv_dist x xmin xres y ymin yres z zmin zres R).2.2.2.length ∧
    ∀ k, k < (get_index_vals_inv_dist x xmin xres y ymin yres z zmin zres R).2.2.2.length →
      cell_dist x y z
          (get_value ((get_index_vals_inv_dist x xmin xres y ymin yres z zmin zres R).1.getD k 0) xmin xres)
          (get_value ((get_index_vals_inv_dist x xmin xres y ymin yres z zmin zres R).2.1.getD k 0) ymin yres)
          (get_value ((get_index_vals_inv_dist x xmin xres y ymin yres z zmin zres R).2.2.1.getD k 0) zmin zres)
        ≤ (R : ℝ) ∧
      (get_index_vals_inv_dist x xmin xres y ymin yres z zmin zres R).2.2.2.getD k 0 =
        1 / max (cell_dist x y z
          (get_value ((get_index_vals_inv_dist x xmin xres y ymin yres z zmin zres R).1.getD k 0) xmin xres)
          (get_value ((get_index_vals_inv_dist x xmin xres y ymin yres z zmin zres R).2.1.getD k 0) ymin yres)
          (get_value ((get_index_vals_inv_dist x xmin xres y ymin yres z zmin zres R).2.2.1.getD k 0) zmin zres))
          ((R : ℝ) / 10) := by
  simp only [get_index_vals_inv_dist]
  refine ⟨by simp, by simp, by simp, ?_⟩
  intro k hk
  rw [List.length_map] at hk
  set cells := inv_dist_cells x xmin xres y ymin yres z zmin zres R with hcdef
  set c := cells.get ⟨k, hk⟩ with hcget
  have hmem : c ∈ cells := List.get_mem cells k hk
  have hprop := inv_dist_cells_mem x xmin xres y ymin yres z zmin zres R c hmem
  have hg1 : (cells.map (fun c => c.1)).getD k 0 = c.1 := by
    rw [List.getD_eq_getElem _ _ (by simpa using hk)]
    simp [hcget]
  have hg2 : (cells.map (fun c => c.2.1)).getD k 0 = c.2.1 := by
    rw [List.getD_eq_getElem _ _ (by simpa using hk)]
    simp [hcget]
  have hg3 : (cells.map (fun c => c.2.2)).getD k 0 = c.2.2 := by
    rw [List.getD_eq_getElem _ _ (by simpa using hk)]
    simp [hcget]
  have hg4 : (cells.map (inv_dist_weight x xmin xres y ymin yres z zmin zres R)).getD k 0 =
      inv_dist_weight x xmin xres y ymin yres z zmin zres R c := by
    rw [List.getD_eq_getElem _ _ (by simpa using hk)]
    simp [hcget]
  rw [hg1, hg2, hg3, hg4]
  have hdr2 : (0 : ℚ) ≤ inv_dist_dr2 x xmin xres y ymin yres z zmin zres c :=
    inv_dist_dr2_nonneg x xmin xres y ymin yres z zmin zres c
  rw [cell_dist_eq x xmin xres y ymin yres z zmin zres c]
  have hsq : Real.sqrt (((R * R : ℚ) : ℝ)) = (R : ℝ) := by
    push_cast
    exact Real.sqrt_mul_self (by exact_mod_cast hR.le)
  constructor
  · calc Real.sqrt ((inv_dist_dr2 x xmin xres y ymin yres z zmin zres c : ℚ) : ℝ)
        ≤ Real.sqrt (((R * R : ℚ) : ℝ)) :=
          Real.sqrt_le_sqrt (by exact_mod_cast hprop.2)
      _ = (R : ℝ) := hsq
  · simp only [inv_dist_weight]
    by_cases hcond : 0 < R / 10 ∧
        inv_dist_dr2 x xmin xres y ymin yres z zmin zres c < R / 10 * (R / 10)
    · rw [if_pos hcond]
      have hm : (0 : ℝ) < (R : ℝ) / 10 := by
        have : (0 : ℝ) < (R : ℝ) := by exact_mod_cast hR
        linarith
      have hlt : Real.sqrt ((inv_dist_dr2 x xmin xres y ymin yres z zmin zres c : ℚ) : ℝ) <
          (R : ℝ) / 10 := by
        have hc2 : ((inv_dist_dr2 x xmin xres y ymin yres z zmin zres c : ℚ) : ℝ) <
            ((R : ℝ) / 10) * ((R : ℝ) / 10) := by
          exact_mod_cast hcond.2
        calc Real.sqrt ((inv_dist_dr2 x xmin xres y ymin yres z zmin zres c : ℚ) : ℝ)
            < Real.sqrt (((R : ℝ) / 10) * ((R : ℝ) / 10)) :=
              Real.sqrt_lt_sqrt (by exact_mod_cast hdr2) hc2
          _ = (R : ℝ) / 10 := Real.sqrt_mul_self hm.le
      rw [max_eq_right hlt.le]
      push_cast
      ring
    · rw [if_neg hcond]
      have hm : (0 : ℚ) < R / 10 := by linarith
      have hge : R / 10 * (R / 10) ≤ inv_dist_dr2 x xmin xres y ymin yres z zmin zres c := by
        by_contra hcon
        exact hcond ⟨hm, lt_of_not_le hcon⟩
      have hle2 : (R : ℝ) / 10 ≤
          Real.sqrt ((inv_dist_dr2 x xmin xres y ymin yres z zmin zres c : ℚ) : ℝ) := by
        have hmr : (0 : ℝ) ≤ (R : ℝ) / 10 := by
          have : (0 : ℝ) < (R : ℝ) := by exact_mod_cast hR
          linarith
        calc (R : ℝ) / 10 = Real.sqrt (((R : ℝ) / 10) * ((R : ℝ) / 10)) :=
              (Real.sqrt_mul_self hmr).symm
          _ ≤ Real.sqrt ((inv_dist_dr2 x xmin xres y ymin yres z zmin zres c : ℚ) : ℝ) := by
              apply Real.sqrt_le_sqrt
              exact_mod_cast hge
      rw [max_eq_left hle2]

/-- Witness for the amended C1 at the concrete input of the counterexample
(`R = 1 > 0`). -/
theorem inv_dist_within_radius_witness :
    (0 : ℚ) < 1 ∧
    ((get_index_vals_inv_dist (2/5) 0 1 0 0 1 0 0 1 1).1.length =
      (get_index_vals_inv_dist (2/5) 0 1 0 0 1 0 0 1 1).2.2.2.length ∧
    (get_index_vals_inv_dist (2/5) 0 1 0 0 1 0 0 1 1).2.1.length =
      (get_index_vals_inv_dist (2/5) 0 1 0 0 1 0 0 1 1).2.2.2.length ∧
    (get_index_vals_inv_dist (2/5) 0 1 0 0 1 0 0 1 1).2.2.1.length =
      (get_index_vals_inv_dist (2/5) 0 1 0 0 1 0 0 1 1).2.2.2.length ∧
    ∀ k, k < (get_index_vals_inv_dist (2/5) 0 1 0 0 1 0 0 1 1).2.2.2.length →
      cell_dist (2/5) 0 0
          (get_value ((get_index_vals_inv_dist (2/5) 0 1 0 0 1 0 0 1 1).1.getD k 0) 0 1)
          (get_value ((get_index_vals_inv_dist (2/5) 0 1 0 0 1 0 0 1 1).2.1.getD k 0) 0 1)
          (get_value ((get_index_vals_inv_dist (2/5) 0 1 0 0 1 0 0 1 1).2.2.1.getD k 0) 0 1)
        ≤ ((1 : ℚ) : ℝ) ∧
      (get_index_vals_inv_dist (2/5) 0 1 0 0 1 0 0 1 1).2.2.2.getD k 0 =
        1 / max (cell_dist (2/5) 0 0
          (get_value ((get_index_vals_inv_dist (2/5) 0 1 0 0 1 0 0 1 1).1.getD k 0) 0 1)
          (get_value ((get_index_vals_inv_dist (2/5) 0 1 0 0 1 0 0 1 1).2.1.getD k 0) 0 1)
          (get_value ((get_index_vals_inv_dist (2/5) 0 1 0 0 1 0 0 1 1).2.2.1.getD k 0) 0 1))
          (((1 : ℚ) : ℝ) / 10)) :=
  ⟨by norm_num, inv_dist_within_radius (2/5) 0 1 0 0 1 0 0 1 1 (by norm_num)⟩

/-! ### C9: the MinMax scanner -/

/-- On finite values the running-min update computes the minimum. -/
lemma mm_min_step_some (m a : ℚ) : mm_min_step (some m) (some a) = some (min m a) := by
  unfold mm_min_step fgt
  by_cases h : m < a
  · simp [h, min_eq_left h.le]
  · simp [h, min_eq_right (le_of_not_lt h)]

/-- On finite values the running-max update computes the maximum. -/
lemma mm_max_step_some (m a : ℚ) : mm_max_step (some m) (some a) = some (max m a) := by
  unfold mm_max_step flt
  by_cases h : a < m
  · simp [h, max_eq_left h.le]
  · simp [h, max_eq_right (le_of_not_lt h)]

/-- Folding the running-min update over a NaN-free list from a finite seed
yields a finite lower bound of the seed and of every element. -/
lemma mm_min_fold_some (l : List F) (hf : ∀ a ∈ l, a.isSome) (q0 : ℚ) :
    ∃ m : ℚ, l.foldl mm_min_step (some q0) = some m ∧ m ≤ q0 ∧
      ∀ q : ℚ, some q ∈ l → m ≤ q := by
  induction l generalizing q0 with
  | nil => exact ⟨q0, rfl, le_refl _, by simp⟩
  | cons a t ih =>
    obtain ⟨qa, rfl⟩ := Option.isSome_iff_exists.mp (hf a (by simp))
    rw [List.foldl_cons, mm_min_step_some]
    obtain ⟨m, hm, hle, hall⟩ := ih (fun b hb => hf b (by simp [hb])) (min q0 qa)
    refine ⟨m, hm, le_trans hle (min_le_left _ _), ?_⟩
    intro q hq
    rcases List.mem_cons.mp hq with h | h
    · obtain rfl := Option.some.inj h.symm
      exact le_trans hle (min_le_right _ _)
    · exact hall q h

/-- Folding the running-max update over a NaN-free list from a finite seed
yields a finite upper bound of the seed and of every element. -/
lemma mm_max_fold_some (l : List F) (hf : ∀ a ∈ l, a.isSome) (q0 : ℚ) :
    ∃ m : ℚ, l.foldl mm_max_step (some q0) = some m ∧ q0 ≤ m ∧
      ∀ q : ℚ, some q ∈ l → q ≤ m := by
  induction l generalizing q0 with
  | nil => exact ⟨q0, rfl, le_refl _, by simp⟩
  | cons a t ih =>
    obtain ⟨qa, rfl⟩ := Option.isSome_iff_exists.mp (hf a (by simp))
    rw [List.foldl_cons, mm_max_step_some]
    obtain ⟨m, hm, hle, hall⟩ := ih (fun b hb => hf b (by simp [hb])) (max q0 qa)
    refine ⟨m, hm, le_trans (le_max_left _ _) hle, ?_⟩
    intro q hq
    rcases List.mem_cons.mp hq with h | h
    · obtain rfl := Option.some.inj h.symm
      exact le_trans (le_max_right _ _) hle
    · exact hall q h

/-- From the NaN seed, a nonempty NaN-free fold of the running min bounds
every element from below. -/
lemma mm_min_fold_all (l : List F) (hne : l ≠ []) (hf : ∀ a ∈ l, a.isSome) :
    ∃ m : ℚ, l.foldl mm_min_step none = some m ∧ ∀ q : ℚ, some q ∈ l → m ≤ q := by
  match l, hne with
  | a :: t, _ =>
    obtain ⟨qa, rfl⟩ := Option.isSome_iff_exists.mp (hf a (by simp))
    rw [List.foldl_cons, show mm_min_step none (some qa) = some qa from rfl]
    obtain ⟨m, hm, hle, hall⟩ := mm_min_fold_some t (fun b hb => hf b (by simp [hb])) qa
    refine ⟨m, hm, ?_⟩
    intro q hq
    rcases List.mem_cons.mp hq with h | h
    · obtain rfl := Option.some.inj h.symm
      exact hle
    · exact hall q h

/-- From the NaN seed, a nonempty NaN-free fold of the running max bounds
every element from above. -/
lemma mm_max_fold_all (l : List F) (hne : l ≠ []) (hf : ∀ a ∈ l, a.isSome) :
    ∃ m : ℚ, l.foldl mm_max_step none = some m ∧ ∀ q : ℚ, some q ∈ l → q ≤ m := by
  match l, hne with
  | a :: t, _ =>
    obtain ⟨qa, rfl⟩ := Option.isSome_iff_exists.mp (hf a (by simp))
    rw [List.foldl_cons, show mm_max_step none (some qa) = some qa from rfl]
    obtain ⟨m, hm, hle, hall⟩ := mm_max_fold_some t (fun b hb => hf b (by simp [hb])) qa
    refine ⟨m, hm, ?_⟩
    intro q hq
    rcases List.mem_cons.mp hq with h | h
    · obtain rfl := Option.some.inj h.symm
      exact hle
    · exact hall q h

/-- The combined six-component fold of `get_minmax` acts componentwise: it is
the product of the six per-axis folds (for equal-length inputs). -/
lemma minmax_fold_decomp (sx sy sz : List F) (m : MM)
    (hxy : sx.length = sy.length) (hyz : sy.length = sz.length) :
    ((sx.zip sy).zip sz).foldl (fun m p => minmax_step m (p.1.1, p.1.2, p.2)) m =
      (sx.foldl mm_min_step m.1, sx.foldl mm_max_step m.2.1,
       sy.foldl mm_min_step m.2.2.1, sy.foldl mm_max_step m.2.2.2.1,
       sz.foldl mm_min_step m.2.2.2.2.1, sz.foldl mm_max_step m.2.2.2.2.2) := by
  induction sx generalizing sy sz m with
  | nil =>
    cases sy with
    | nil =>
      cases sz with
      | nil => rfl
      | cons c tz => exact absurd hyz (by simp)
    | cons b ty => exact absurd hxy (by simp)
  | cons a tx ih =>
    cases sy with
    | nil => exact absurd hxy (by simp)
    | cons b ty =>
      cases sz with
      | nil => exact absurd hyz (by simp)
      | cons c tz =>
        simp only [List.zip_cons_cons, List.foldl_cons]
        exact ih ty tz _ (by simpa using hxy) (by simpa using hyz)

/-- Counterexample to C9 as stated: on the equal-length, non-empty input with
x-coordinates `[0, NaN, 1]` (and all-zero y and z), `get_minmax` returns
`xmin = xmax = 1`: the NaN resets both running extrema (every comparison with
NaN is false, so `not x > minx` fires), and the x-interval `[1, 1]` fails to
contain the x-coordinate `0` that is present in the input. -/
theorem minmax_counterexample :
    get_minmax [some 0, none, some 1] [some 0, some 0, some 0]
        [some 0, some 0, some 0] =
      some (some 1, some 1, some 0, some 0, some 0, some 0) ∧
    some (0 : ℚ) ∈ [some (0 : ℚ), none, some 1] ∧ ¬((1 : ℚ) ≤ 0) := by
  refine ⟨?_, by simp, by norm_num⟩
  simp only [get_minmax, minmax_step, mm_min_step, mm_max_step, fgt, flt]
  norm_num

/-- C9 as amended: `get_minmax` on equal-length inputs returns all six NaN on
empty input; on non-empty input **free of NaN coordinates** every coordinate
of each axis lies in that axis's returned `[min, max]` interval.  (With a NaN
coordinate present the running extrema are reset and the interval can miss
earlier finite coordinates, see the counterexample.) -/
theorem minmax_amended (sx sy sz : List F)
    (hxy : sx.length = sy.length) (hyz : sy.length = sz.length)
    (hfx : ∀ a ∈ sx, a.isSome) (hfy : ∀ a ∈ sy, a.isSome)
    (hfz : ∀ a ∈ sz, a.isSome) :
    (get_minmax [] [] [] = some (none, none, none, none, none, none)) ∧
    (sx ≠ [] → ∃ (mx Mx my My mz Mz : ℚ),
      get_minmax sx sy sz =
        some (some mx, some Mx, some my, some My, some mz, some Mz) ∧
      (∀ q : ℚ, some q ∈ sx → mx ≤ q ∧ q ≤ Mx) ∧
      (∀ q : ℚ, some q ∈ sy → my ≤ q ∧ q ≤ My) ∧
      (∀ q : ℚ, some q ∈ sz → mz ≤ q ∧ q ≤ Mz)) := by
  constructor
  · simp [get_minmax]
  · intro hne
    have hney : sy ≠ [] := by
      intro h
      rw [h] at hxy
      exact hne (List.length_eq_zero.mp (by simpa using hxy))
    have hnez : sz ≠ [] := by
      intro h
      rw [h] at hyz
      exact hney (List.length_eq_zero.mp (by simpa using hyz))
    obtain ⟨mx, hmx, hmxall⟩ := mm_min_fold_all sx hne hfx
    obtain ⟨Mx, hMx, hMxall⟩ := mm_max_fold_all sx hne hfx
    obtain ⟨my, hmy, hmyall⟩ := mm_min_fold_all sy hney hfy
    obtain ⟨My, hMy, hMyall⟩ := mm_max_fold_all sy hney hfy
    obtain ⟨mz, hmz, hmzall⟩ := mm_min_fold_all sz hnez hfz
    obtain ⟨Mz, hMz, hMzall⟩ := mm_max_fold_all sz hnez hfz
    refine ⟨mx, Mx, my, My, mz, Mz, ?_, fun q hq => ⟨hmxall q hq, hMxall q hq⟩,
      fun q hq => ⟨hmyall q hq, hMyall q hq⟩, fun q hq => ⟨hmzall q hq, hMzall q hq⟩⟩
    unfold get_minmax
    rw [if_pos ⟨hxy, hyz⟩, minmax_fold_decomp sx sy sz _ hxy hyz]
    rw [hmx, hMx, hmy, hMy, hmz, hMz]

/-- Witness for the amended C9 on the concrete input `x = [some 2]`,
`y = [some 3]`, `z = [some 5]`. -/
theorem minmax_amended_witness :
    (get_minmax [] [] [] = some (none, none, none, none, none, none)) ∧
    ∃ (mx Mx my My mz Mz : ℚ),
      get_minmax [some 2] [some 3] [some 5] =
        some (some mx, some Mx, some my, some My, some mz, some Mz) ∧
      (∀ q : ℚ, some q ∈ [some (2:ℚ)] → mx ≤ q ∧ q ≤ Mx) ∧
      (∀ q : ℚ, some q ∈ [some (3:ℚ)] → my ≤ q ∧ q ≤ My) ∧
      (∀ q : ℚ, some q ∈ [some (5:ℚ)] → mz ≤ q ∧ q ≤ Mz) := by
  have h := minmax_amended [some 2] [some 3] [some 5] rfl rfl
    (by simp) (by simp) (by simp)
  exact ⟨h.1, h.2 (by simp)⟩

/-! ### Driver-loop lemmas -/

/-- Reading a grid cell just written. -/
lemma gupd_same {α : Type} (g : Grid α) (c : ℤ × ℤ × ℤ) (q : α) :
    gupd g c q c = q := by
  simp [gupd]

/-- Reading a grid cell other than the one written. -/
lemma gupd_other {α : Type} (g : Grid α) (c c' : ℤ × ℤ × ℤ) (q : α)
    (h : c' ≠ c) : gupd g c q c' = g c' := by
  simp [gupd, h]

/-- Splitting the sample loop at any point: the second segment runs on the
state the first produced, unless the first segment errored. -/
lemma run_samples_append {σ : Type} (read : ℕ → Option (ℚ × ℚ × ℚ × F))
    (body : ℕ → ℚ × ℚ × ℚ × F → σ → σ × Option PErr) (l₁ l₂ : List ℕ) (g : σ) :
    run_samples read body (l₁ ++ l₂) g =
      match run_samples read body l₁ g with
      | (g', none) => run_samples read body l₂ g'
      | (g', some e) => (g', some e) := by
  induction l₁ generalizing g with
  | nil => simp [run_samples]
  | cons i t ih =>
    simp only [List.cons_append, run_samples]
    rcases hri : read i with _ | a
    · simp
    · dsimp only
      rcases hbd : body i a g with ⟨g', _ | e⟩
      · exact ih g'
      · simp

/-- The loop result only depends on the reads at the visited indices. -/
lemma run_samples_congr {σ : Type} (read₁ read₂ : ℕ → Option (ℚ × ℚ × ℚ × F))
    (body : ℕ → ℚ × ℚ × ℚ × F → σ → σ × Option PErr) :
    ∀ (l : List ℕ) (g : σ), (∀ i ∈ l, read₁ i = read₂ i) →
      run_samples read₁ body l g = run_samples read₂ body l g := by
  intro l
  induction l with
  | nil => intro g _; rfl
  | cons i t ih =>
    intro g h
    simp only [run_samples, ← h i (by simp)]
    rcases hri : read₁ i with _ | a
    · rfl
    · dsimp only
      rcases hbd : body i a g with ⟨g', _ | e⟩
      · exact ih g' (fun j hj => h j (by simp [hj]))
      · rfl

/-- If every visited read succeeds and the body never errors on the visited
indices, the loop finishes without an error. -/
lemma run_samples_no_err {σ : Type} (read : ℕ → Option (ℚ × ℚ × ℚ × F))
    (body : ℕ → ℚ × ℚ × ℚ × F → σ → σ × Option PErr) :
    ∀ (l : List ℕ) (g : σ), (∀ i ∈ l, (read i).isSome) →
      (∀ i a g', i ∈ l → (body i a g').2 = none) →
      (run_samples read body l g).2 = none := by
  intro l
  induction l with
  | nil => intro g _ _; rfl
  | cons i t ih =>
    intro g hr hb
    simp only [run_samples]
    rcases hri : read i with _ | a
    · exact absurd (hri ▸ hr i (by simp)) (by simp)
    · dsimp only
      rcases hbd : body i a g with ⟨g', _ | e⟩
      · exact ih g' (fun j hj => hr j (by simp [hj]))
          (fun j a' g'' hj => hb j a' g'' (by simp [hj]))
      · have := hb i a g (by simp)
        rw [hbd] at this
        exact absurd this (by simp)

/-- A read fails exactly when some coordinate/value sequence lacks index `i`. -/
lemma sample_read_none (sx sy sz : List ℚ) (sv : List F) (i : ℕ)
    (h : sy[i]? = none ∨ sz[i]? = none ∨ sv[i]? = none) :
    sample_read sx sy sz sv i = none := by
  unfold sample_read
  rcases hx : sx[i]? with _ | x <;> rcases hy : sy[i]? with _ | y <;>
    rcases hz : sz[i]? with _ | z <;> rcases hv : sv[i]? with _ | v <;>
    simp_all

/-- A read succeeds when every sequence has index `i`. -/
lemma sample_read_isSome (sx sy sz : List ℚ) (sv : List F) (i : ℕ)
    (hx : i < sx.length) (hy : i < sy.length) (hz : i < sz.length)
    (hv : i < sv.length) : (sample_read sx sy sz sv i).isSome := by
  unfold sample_read
  rw [List.getElem?_eq_getElem hx, List.getElem?_eq_getElem hy,
    List.getElem?_eq_getElem hz, List.getElem?_eq_getElem hv]
  rfl

/-! ### C2: the shared bounds policy -/

/-- The clamped index lies in `[0, n-1]` whenever the axis count is positive. -/
lemma clamp_index_range (i n : ℤ) (hn : 1 ≤ n) :
    0 ≤ clamp_index i n ∧ clamp_index i n < n := by
  unfold clamp_index
  by_cases h1 : i < 0
  · simp only [if_pos h1, abs_zero]
    split_ifs with h2 <;> omega
  · simp only [if_neg h1]
    rw [abs_of_nonneg (le_of_not_lt h1)]
    split_ifs with h2 <;> omega

/-- A negative index is clamped to 0 when the axis count is positive. -/
lemma clamp_index_neg (i n : ℤ) (hi : i < 0) (hn : 1 ≤ n) :
    clamp_index i n = 0 := by
  unfold clamp_index
  simp only [if_pos hi, abs_zero]
  rw [if_neg (by omega)]

/-- An in-range index is left unchanged by the clamp. -/
lemma clamp_index_id (i n : ℤ) (h0 : 0 ≤ i) (hn : i < n) :
    clamp_index i n = i := by
  unfold clamp_index
  rw [if_neg (not_lt.mpr h0), if_neg (by rw [abs_of_nonneg h0]; omega)]

/-- A zero-weight sub-contribution is skipped. -/
lemma splat_sub_zero_weight (skip : Bool) (nx ny nz : ℤ) (v : F)
    (ix iy iz : ℤ) (gs : Grid ℚ × Grid ℚ) :
    splat_sub skip nx ny nz v ix iy iz 0 gs = gs := by
  simp [splat_sub]

/-- C2: the bounds policy of the splat accumulators.  With
`skip_invalid = true` an out-of-range axis index makes `bounds_resolve` drop
the sub-contribution, and the inner-loop body `splat_sub` leaves both grids
untouched; with `skip_invalid = false` every axis index is clamped into
`[0, count-1]` (counts positive) before accumulation.  In particular a
sub-contribution at index `-1` on the x-axis is accumulated at the clamped
cell when `skip_invalid = false` and dropped when `skip_invalid = true`. -/
theorem bounds_policy_spec (nx ny nz ix iy iz : ℤ) :
    ((ix < 0 ∨ iy < 0 ∨ iz < 0 ∨ nx ≤ |ix| ∨ ny ≤ |iy| ∨ nz ≤ |iz|) →
      bounds_resolve true nx ny nz ix iy iz = none ∧
      ∀ (v : F) (w : ℚ) (gs : Grid ℚ × Grid ℚ),
        splat_sub true nx ny nz v ix iy iz w gs = gs) ∧
    (¬(ix < 0 ∨ iy < 0 ∨ iz < 0 ∨ nx ≤ |ix| ∨ ny ≤ |iy| ∨ nz ≤ |iz|) →
      bounds_resolve true nx ny nz ix iy iz = some (ix, iy, iz)) ∧
    (bounds_resolve false nx ny nz ix iy iz =
      some (clamp_index ix nx, clamp_index iy ny, clamp_index iz nz)) ∧
    (1 ≤ nx → 1 ≤ ny → 1 ≤ nz →
      (0 ≤ clamp_index ix nx ∧ clamp_index ix nx < nx) ∧
      (0 ≤ clamp_index iy ny ∧ clamp_index iy ny < ny) ∧
      (0 ≤ clamp_index iz nz ∧ clamp_index iz nz < nz)) ∧
    (ix = -1 → 1 ≤ nx → 1 ≤ ny → 1 ≤ nz →
      ∀ (a w : ℚ) (gs : Grid ℚ × Grid ℚ), 0 ≤ a → w ≠ 0 →
        splat_sub false nx ny nz (some a) ix iy iz w gs =
          (gupd gs.1 (0, clamp_index iy ny, clamp_index iz nz)
            (gs.1 (0, clamp_index iy ny, clamp_index iz nz) + a * w),
           gupd gs.2 (0, clamp_index iy ny, clamp_index iz nz)
            (gs.2 (0, clamp_index iy ny, clamp_index iz nz) + w)) ∧
        splat_sub true nx ny nz (some a) ix iy iz w gs = gs) := by
  refine ⟨?_, ?_, ?_, ?_, ?_⟩
  · intro hout
    have hbr : bounds_resolve true nx ny nz ix iy iz = none := by
      unfold bounds_resolve
      rw [if_neg (by simp), if_pos hout]
    refine ⟨hbr, ?_⟩
    intro v w gs
    unfold splat_sub
    by_cases hw : w = 0
    · rw [if_pos hw]
    · rw [if_neg hw, hbr]
  · intro hin
    unfold bounds_resolve
    rw [if_neg (by simp), if_neg hin]
  · unfold bounds_resolve
    rw [if_pos (by simp)]
  · intro h1 h2 h3
    exact ⟨clamp_index_range ix nx h1, clamp_index_range iy ny h2,
      clamp_index_range iz nz h3⟩
  · rintro rfl h1 h2 h3 a w gs ha hw
    constructor
    · unfold splat_sub
      rw [if_neg hw]
      unfold bounds_resolve
      rw [if_pos (by simp), clamp_index_neg (-1) nx (by norm_num) h1]
      have hv : fge0 (some a) = true := by
        simp [fge0, ha]
      rw [hv]
      simp
    · unfold splat_sub
      rw [if_neg hw]
      have hbr : bounds_resolve true nx ny nz (-1) iy iz = none := by
        unfold bounds_resolve
        rw [if_neg (by simp), if_pos (by left; norm_num)]
      rw [hbr]

/-- Witness for C2 at the concrete geometry `(nx, ny, nz) = (5, 1, 1)` and
index `(-1, 0, 0)` with sample value 7 and weight 1. -/
theorem bounds_policy_spec_witness :
    (bounds_resolve true 5 1 1 (-1) 0 0 = none ∧
      splat_sub true 5 1 1 (some 7) (-1) 0 0 1
        ((fun _ => 0), (fun _ => 0)) = ((fun _ => 0), (fun _ => 0))) ∧
    bounds_resolve false 5 1 1 (-1) 0 0 =
      some (clamp_index (-1) 5, clamp_index 0 1, clamp_index 0 1) ∧
    (0 ≤ clamp_index (-1) 5 ∧ clamp_index (-1) 5 < 5) ∧
    splat_sub false 5 1 1 (some 7) (-1) 0 0 1
        ((fun _ => 0), (fun _ => 0)) =
      (gupd (fun _ => (0:ℚ)) (0, clamp_index 0 1, clamp_index 0 1)
        ((fun _ => (0:ℚ)) ((0:ℤ), clamp_index 0 1, clamp_index 0 1) + 7 * 1),
       gupd (fun _ => (0:ℚ)) (0, clamp_index 0 1, clamp_index 0 1)
        ((fun _ => (0:ℚ)) ((0:ℤ), clamp_index 0 1, clamp_index 0 1) + 1)) := by
  have h := bounds_policy_spec 5 1 1 (-1) 0 0
  have h5 := h.2.2.2.2 rfl (by norm_num) (by norm_num) (by norm_num) 7 1
    ((fun _ => 0), (fun _ => 0)) (by norm_num) (by norm_num)
  exact ⟨⟨(h.1 (by norm_num)).1, (h.1 (by norm_num)).2 (some 7) 1 _⟩,
    h.2.2.1, (h.2.2.2.1 (by norm_num) (by norm_num) (by norm_num)).1, h5.1⟩

/-! ### C10: NaN sample values contribute nothing -/

/-- A NaN-valued sub-contribution never writes (`v >= 0` is false for NaN). -/
lemma splat_sub_nan (skip : Bool) (nx ny nz ix iy iz : ℤ) (w : ℚ)
    (gs : Grid ℚ × Grid ℚ) :
    splat_sub skip nx ny nz none ix iy iz w gs = gs := by
  unfold splat_sub
  by_cases hw : w = 0
  · rw [if_pos hw]
  · rw [if_neg hw]
    cases bounds_resolve skip nx ny nz ix iy iz with
    | none => rfl
    | some c => rfl

/-- Real-weight version of `splat_sub_nan`. -/
lemma splat_sub_r_nan (skip : Bool) (nx ny nz ix iy iz : ℤ) (w : ℝ)
    (gs : Grid ℝ × Grid ℝ) :
    splat_sub_r skip nx ny nz none ix iy iz w gs = gs := by
  unfold splat_sub_r
  by_cases hw : w = 0
  · rw [if_pos hw]
  · rw [if_neg hw]
    cases bounds_resolve skip nx ny nz ix iy iz with
    | none => rfl
    | some c => rfl

/-- The whole weighted inner loop is a no-op for a NaN sample value. -/
lemma splat_fold_nan (skip : Bool) (nx ny nz : ℤ)
    (entries : List ((ℤ × ℤ × ℤ) × ℚ)) (gs : Grid ℚ × Grid ℚ) :
    splat_fold skip nx ny nz none entries gs = gs := by
  induction entries generalizing gs with
  | nil => rfl
  | cons e t ih =>
    unfold splat_fold at ih ⊢
    rw [List.foldl_cons, splat_sub_nan]
    exact ih gs

/-- Real-weight version of `splat_fold_nan`. -/
lemma splat_fold_r_nan (skip : Bool) (nx ny nz : ℤ)
    (entries : List ((ℤ × ℤ × ℤ) × ℝ)) (gs : Grid ℝ × Grid ℝ) :
    splat_fold_r skip nx ny nz none entries gs = gs := by
  induction entries generalizing gs with
  | nil => rfl
  | cons e t ih =>
    unfold splat_fold_r at ih ⊢
    rw [List.foldl_cons, splat_sub_r_nan]
    exact ih gs

/-- C10: in all three splat accumulators, a sample whose value is NaN
contributes nothing — the per-sample loop body of each accumulator returns
the grids unchanged, because the validity test `v >= 0` evaluates false for
NaN exactly as it does for negative values. -/
theorem nan_value_no_contribution (xmin xres : ℚ) (nx : ℤ) (ymin yres : ℚ)
    (ny : ℤ) (zmin zres : ℚ) (nz : ℤ) (skip : Bool) (i : ℕ) (x y z : ℚ)
    (extent : Option (List ℚ)) (radius : List ℚ)
    (gs : Grid ℚ × Grid ℚ) (gr : Grid ℝ × Grid ℝ) :
    (image_body xmin xres nx ymin yres ny zmin zres nz skip i (x, y, z, none) gs).1 = gs ∧
    (image2_body xmin xres nx ymin yres ny zmin zres nz extent skip i (x, y, z, none) gs).1 = gs ∧
    (inv_dist_body xmin xres nx ymin yres ny zmin zres nz radius skip i (x, y, z, none) gr).1 = gr := by
  refine ⟨?_, ?_, ?_⟩
  · simp only [image_body]
    cases bounds_resolve skip nx ny nz (get_index x xmin xres)
        (get_index y ymin yres) (get_index z zmin zres) with
    | none => rfl
    | some c => rfl
  · simp only [image2_body]
    cases extent with
    | none => exact splat_fold_nan _ _ _ _ _ _
    | some ext =>
      dsimp only
      cases ext[i]? with
      | none => rfl
      | some e =>
        dsimp only
        cases get_index_vals2
            (get_index_fraction (x - e / 2) xmin xres)
            (get_index_fraction (x + e / 2) xmin xres)
            (get_index_fraction (y - e / 2) ymin yres)
            (get_index_fraction (y + e / 2) ymin yres)
            (get_index_fraction (z - e / 2) zmin zres)
            (get_index_fraction (z + e / 2) zmin zres) with
        | none => rfl
        | some r => exact splat_fold_nan _ _ _ _ _ _
  · simp only [inv_dist_body]
    cases radius[i]? with
    | none => rfl
    | some r => exact splat_fold_r_nan _ _ _ _ _ _

/-! ### C8: the concrete nearest-cell scenario -/

/-- Evaluation form of `splat_sub` on a contributing entry. -/
lemma splat_sub_eval_pos {skip : Bool} {nx ny nz ix iy iz : ℤ} {c : ℤ × ℤ × ℤ}
    {a w : ℚ} (gs : Grid ℚ × Grid ℚ) (hw : w ≠ 0)
    (hbr : bounds_resolve skip nx ny nz ix iy iz = some c) (ha : 0 ≤ a) :
    splat_sub skip nx ny nz (some a) ix iy iz w gs =
      (gupd gs.1 c (gs.1 c + a * w), gupd gs.2 c (gs.2 c + w)) := by
  unfold splat_sub
  rw [if_neg hw, hbr]
  simp [fge0, ha]

/-- The full nearest-cell run of the C8 scenario, in closed form. -/
lemma nearest_cell_scenario_run :
    (get_sampled_image [12/5] [0] [0] [some 10] 0 1 5 0 1 1 0 1 1
      (fun _ => 0) (fun _ => 0) true) =
    ((gupd (fun _ => (0:ℚ)) (2,0,0) ((fun _ => (0:ℚ)) ((2:ℤ),(0:ℤ),(0:ℤ)) + 10),
      gupd (fun _ => (0:ℚ)) (2,0,0) ((fun _ => (0:ℚ)) ((2:ℤ),(0:ℤ),(0:ℤ)) + 1)),
     none) := by
  have hix : get_index (12/5) 0 1 = 2 := by norm_num [get_index, round_int, round_eq]
  have hi0 : get_index 0 0 1 = 0 := by norm_num [get_index, round_int, round_eq]
  have hbody : image_body 0 1 5 0 1 1 0 1 1 true 0 ((12:ℚ)/5, (0:ℚ), (0:ℚ), some (10:ℚ))
      ((fun _ => (0:ℚ)), (fun _ => (0:ℚ))) =
      ((gupd (fun _ => (0:ℚ)) (2,0,0) ((fun _ => (0:ℚ)) ((2:ℤ),(0:ℤ),(0:ℤ)) + 10),
        gupd (fun _ => (0:ℚ)) (2,0,0) ((fun _ => (0:ℚ)) ((2:ℤ),(0:ℤ),(0:ℤ)) + 1)),
       none) := by
    simp only [image_body, hix, hi0]
    norm_num [fge0]
    rfl
  simp only [get_sampled_image, show List.range 1 = [0] from rfl, run_samples]
  rw [show sample_read [12/5] [0] [0] [some 10] 0 = some (12/5, 0, 0, some 10) from rfl]
  dsimp only
  rw [hbody]

/-- C8: the nearest-cell accumulator on geometry x:(0,1,5), y:(0,1,1),
z:(0,1,1), zero grids and the single sample (2.4, 0, 0, v=10) completes
without error, puts weight-sum 1 and value-sum 10 at cell (2,0,0), and leaves
every other cell of both grids at zero. -/
theorem nearest_cell_scenario :
    (get_sampled_image [12/5] [0] [0] [some 10] 0 1 5 0 1 1 0 1 1
      (fun _ => 0) (fun _ => 0) true).2 = none ∧
    (get_sampled_image [12/5] [0] [0] [some 10] 0 1 5 0 1 1 0 1 1
      (fun _ => 0) (fun _ => 0) true).1.1 (2, 0, 0) = 10 ∧
    (get_sampled_image [12/5] [0] [0] [some 10] 0 1 5 0 1 1 0 1 1
      (fun _ => 0) (fun _ => 0) true).1.2 (2, 0, 0) = 1 ∧
    ∀ c : ℤ × ℤ × ℤ, c ≠ (2, 0, 0) →
      (get_sampled_image [12/5] [0] [0] [some 10] 0 1 5 0 1 1 0 1 1
        (fun _ => 0) (fun _ => 0) true).1.1 c = 0 ∧
      (get_sampled_image [12/5] [0] [0] [some 10] 0 1 5 0 1 1 0 1 1
        (fun _ => 0) (fun _ => 0) true).1.2 c = 0 := by
  refine ⟨by rw [nearest_cell_scenario_run], ?_, ?_, ?_⟩
  · rw [nearest_cell_scenario_run]
    dsimp only
    rw [gupd_same]
    norm_num
  · rw [nearest_cell_scenario_run]
    dsimp only
    rw [gupd_same]
    norm_num
  · intro c hc
    rw [nearest_cell_scenario_run]
    dsimp only
    exact ⟨gupd_other _ _ _ _ hc, gupd_other _ _ _ _ hc⟩

/-- Witness for C8's all-other-cells-unchanged clause at the cell (3,0,0). -/
theorem nearest_cell_scenario_witness :
    ((3:ℤ), (0:ℤ), (0:ℤ)) ≠ ((2:ℤ), (0:ℤ), (0:ℤ)) ∧
    (get_sampled_image [12/5] [0] [0] [some 10] 0 1 5 0 1 1 0 1 1
      (fun _ => 0) (fun _ => 0) true).1.1 (3, 0, 0) = 0 ∧
    (get_sampled_image [12/5] [0] [0] [some 10] 0 1 5 0 1 1 0 1 1
      (fun _ => 0) (fun _ => 0) true).1.2 (3, 0, 0) = 0 :=
  ⟨by decide, (nearest_cell_scenario.2.2.2 (3, 0, 0) (by decide)).1,
   (nearest_cell_scenario.2.2.2 (3, 0, 0) (by decide)).2⟩

/-! ### C3: no length check in the splat accumulators -/

/-- Trilinear generator at integral fractional indices, evaluated. -/
lemma trilinear_at_zero : get_index_vals 0 0 0 =
    ([0,0,0,0,0,0,0,0], [0,0,0,0,0,0,0,0], [0,0,0,0,0,0,0,0],
     [1,0,0,0,0,0,0,0]) := by
  norm_num [get_index_vals, Int.fract]

/-- The inner loop of the C3 counterexample run, evaluated. -/
lemma mismatch_cex_fold : splat_fold true 1 1 1 (some 1)
    [((0,0,0),1),((0,0,0),0),((0,0,0),0),((0,0,0),0),((0,0,0),0),((0,0,0),0),
     ((0,0,0),0),((0,0,0),0)] ((fun _ => 0), (fun _ => 0)) =
    (gupd (fun _ => (0:ℚ)) (0,0,0) ((fun _ => (0:ℚ)) ((0:ℤ),(0:ℤ),(0:ℤ)) + 1 * 1),
     gupd (fun _ => (0:ℚ)) (0,0,0) ((fun _ => (0:ℚ)) ((0:ℤ),(0:ℤ),(0:ℤ)) + 1)) := by
  simp only [splat_fold, List.foldl_cons, List.foldl_nil, splat_sub_zero_weight]
  rw [splat_sub_eval_pos _ (by norm_num)
    (show bounds_resolve true 1 1 1 0 0 0 = some (0,0,0) from rfl) (by norm_num)]

/-- The per-sample body of the C3 counterexample run, evaluated. -/
lemma mismatch_cex_body :
    image2_body 0 1 1 0 1 1 0 1 1 none true 0 ((0:ℚ), (0:ℚ), (0:ℚ), some (1:ℚ))
      ((fun _ => (0:ℚ)), (fun _ => (0:ℚ))) =
    ((gupd (fun _ => (0:ℚ)) (0,0,0) ((fun _ => (0:ℚ)) ((0:ℤ),(0:ℤ),(0:ℤ)) + 1 * 1),
      gupd (fun _ => (0:ℚ)) (0,0,0) ((fun _ => (0:ℚ)) ((0:ℤ),(0:ℤ),(0:ℤ)) + 1)),
     none) := by
  have hfr : get_index_fraction 0 0 1 = 0 := by norm_num [get_index_fraction]
  simp only [image2_body, hfr, trilinear_at_zero]
  rw [show zip4 [(0:ℤ),0,0,0,0,0,0,0] [(0:ℤ),0,0,0,0,0,0,0] [(0:ℤ),0,0,0,0,0,0,0]
      [(1:ℚ),0,0,0,0,0,0,0] =
      [((0,0,0),1),((0,0,0),0),((0,0,0),0),((0,0,0),0),((0,0,0),0),((0,0,0),0),
       ((0,0,0),0),((0,0,0),0)] from rfl, mismatch_cex_fold]

/-- The C3 counterexample run, in closed form. -/
lemma mismatch_cex_run : get_sampled_image2 [0] [0, 5] [0] [some 1] 0 1 1 0 1 1
    0 1 1 (fun _ => 0) (fun _ => 0) none true =
    ((gupd (fun _ => (0:ℚ)) (0,0,0) ((fun _ => (0:ℚ)) ((0:ℤ),(0:ℤ),(0:ℤ)) + 1 * 1),
      gupd (fun _ => (0:ℚ)) (0,0,0) ((fun _ => (0:ℚ)) ((0:ℤ),(0:ℤ),(0:ℤ)) + 1)),
     none) := by
  simp only [get_sampled_image2, show List.range 1 = [0] from rfl, run_samples]
  rw [show sample_read [0] [0, 5] [0] [some 1] 0 = some (0, 0, 0, some 1) from rfl]
  dsimp only
  rw [mismatch_cex_body]

/-- Counterexample to C3 as stated: calling the point/box splat accumulator
with x/y/z/v sequences of differing lengths (`len(sy) = 2` but the others 1)
raises no error at all — the loop is driven by `len(sx)` alone and the extra
`sy` entry is silently ignored — and the grids are mutated: the weight-sum
and value-sum at cell `(0,0,0)` both become 1.  No length precondition is
checked before mutation. -/
theorem length_mismatch_counterexample :
    ([(0:ℚ)].length ≠ [(0:ℚ), 5].length) ∧
    (get_sampled_image2 [0] [0, 5] [0] [some 1] 0 1 1 0 1 1 0 1 1
      (fun _ => 0) (fun _ => 0) none true).2 = none ∧
    (get_sampled_image2 [0] [0, 5] [0] [some 1] 0 1 1 0 1 1 0 1 1
      (fun _ => 0) (fun _ => 0) none true).1.1 (0, 0, 0) = 1 ∧
    (get_sampled_image2 [0] [0, 5] [0] [some 1] 0 1 1 0 1 1 0 1 1
      (fun _ => 0) (fun _ => 0) none true).1.2 (0, 0, 0) = 1 := by
  refine ⟨by decide, by rw [mismatch_cex_run], ?_, ?_⟩
  · rw [mismatch_cex_run]
    dsimp only
    rw [gupd_same]
    norm_num
  · rw [mismatch_cex_run]
    dsimp only
    rw [gupd_same]
    norm_num

/-- The trilinear-path body never raises. -/
lemma image2_body_no_extent_err (xmin xres : ℚ) (nx : ℤ) (ymin yres : ℚ)
    (ny : ℤ) (zmin zres : ℚ) (nz : ℤ) (skip : Bool) (i : ℕ)
    (s : ℚ × ℚ × ℚ × F) (gs : Grid ℚ × Grid ℚ) :
    (image2_body xmin xres nx ymin yres ny zmin zres nz none skip i s gs).2 =
      none := rfl

/-- Truncating all four sequences at `m` does not change the reads below `m`. -/
lemma sample_read_take (sx sy sz : List ℚ) (sv : List F) (m i : ℕ) (h : i < m) :
    sample_read (sx.take m) (sy.take m) (sz.take m) (sv.take m) i =
      sample_read sx sy sz sv i := by
  unfold sample_read
  simp only [List.getElem?_take, if_pos h]

/-- C3 as amended: the splat accumulators perform no length check on the
x/y/z/v sequences.  For the point/box accumulator on its trilinear path:
when `sx` is no longer than the other three sequences the call completes with
no error (extra entries of the others are silently ignored); when some other
sequence is shorter than `sx`, an index error is raised at the first index
`m` past the shortest of them, after the mutations for samples `0..m-1` have
been applied to the grids — those mutations remain (the result equals the run
on the sequences truncated at `m`, followed by the error). -/
theorem length_mismatch_amended (sx sy sz : List ℚ) (sv : List F)
    (xmin xres : ℚ) (nx : ℤ) (ymin yres : ℚ) (ny : ℤ) (zmin zres : ℚ)
    (nz : ℤ) (imagenum imagesum : Grid ℚ) (skip : Bool) :
    (sx.length ≤ sy.length → sx.length ≤ sz.length → sx.length ≤ sv.length →
      (get_sampled_image2 sx sy sz sv xmin xres nx ymin yres ny zmin zres nz
        imagenum imagesum none skip).2 = none) ∧
    (∀ m : ℕ, m = min sy.length (min sz.length sv.length) → m < sx.length →
      get_sampled_image2 sx sy sz sv xmin xres nx ymin yres ny zmin zres nz
        imagenum imagesum none skip =
      ((get_sampled_image2 (sx.take m) (sy.take m) (sz.take m) (sv.take m)
        xmin xres nx ymin yres ny zmin zres nz imagenum imagesum none skip).1,
       some PErr.indexError)) := by
  constructor
  · intro h1 h2 h3
    apply run_samples_no_err
    · intro i hi
      rw [List.mem_range] at hi
      exact sample_read_isSome sx sy sz sv i hi (lt_of_lt_of_le hi h1)
        (lt_of_lt_of_le hi h2) (lt_of_lt_of_le hi h3)
    · intro i a g' _
      exact image2_body_no_extent_err xmin xres nx ymin yres ny zmin zres nz
        skip i a g'
  · intro m hm hmn
    have hy' : m ≤ sy.length := by omega
    have hz' : m ≤ sz.length := by omega
    have hv' : m ≤ sv.length := by omega
    have hone : sy.length = m ∨ sz.length = m ∨ sv.length = m := by omega
    simp only [get_sampled_image2]
    rw [List.length_take, min_eq_left hmn.le]
    rw [show sx.length = m + (sx.length - m) from by omega, List.range_add,
      run_samples_append]
    rcases hT : run_samples (sample_read sx sy sz sv)
        (image2_body xmin xres nx ymin yres ny zmin zres nz none skip)
        (List.range m) (imagesum, imagenum) with ⟨g', e⟩
    have hTerr : e = none := by
      have h := run_samples_no_err (sample_read sx sy sz sv)
        (image2_body xmin xres nx ymin yres ny zmin zres nz none skip)
        (List.range m) (imagesum, imagenum)
        (fun i hi => sample_read_isSome sx sy sz sv i
          (lt_trans (List.mem_range.mp hi) hmn)
          (lt_of_lt_of_le (List.mem_range.mp hi) hy')
          (lt_of_lt_of_le (List.mem_range.mp hi) hz')
          (lt_of_lt_of_le (List.mem_range.mp hi) hv'))
        (fun i a g'' _ => image2_body_no_extent_err xmin xres nx ymin yres ny
          zmin zres nz skip i a g'')
      rw [hT] at h
      exact h
    subst hTerr
    dsimp only
    rw [show sx.length - m = (sx.length - m - 1) + 1 from by omega,
      List.range_succ_eq_map]
    simp only [List.map_cons, Nat.add_zero]
    rw [run_samples]
    rw [sample_read_none sx sy sz sv m (by
      rcases hone with h | h | h
      · exact Or.inl (List.getElem?_eq_none (le_of_eq h))
      · exact Or.inr (Or.inl (List.getElem?_eq_none (le_of_eq h)))
      · exact Or.inr (Or.inr (List.getElem?_eq_none (le_of_eq h))))]
    rw [run_samples_congr (sample_read (sx.take m) (sy.take m) (sz.take m)
        (sv.take m)) (sample_read sx sy sz sv)
        (image2_body xmin xres nx ymin yres ny zmin zres nz none skip)
        (List.range m) (imagesum, imagenum)
        (fun i hi => sample_read_take sx sy sz sv m i (List.mem_range.mp hi)),
      hT]

/-- Witness for the amended C3: `sx = sz = [0,0]`, `sv = [1,1]` but
`sy = [0]`, so the run errors at index 1 keeping sample 0's mutations; and
the no-error part at matching length 1. -/
theorem length_mismatch_amended_witness :
    (([(0:ℚ)].length ≤ [(0:ℚ)].length ∧
      (get_sampled_image2 [0] [0] [0] [some 1] 0 1 1 0 1 1 0 1 1
        (fun _ => 0) (fun _ => 0) none true).2 = none)) ∧
    ((1 : ℕ) = min [(0:ℚ)].length (min [(0:ℚ), 0].length
        [some (1:ℚ), some 1].length) ∧
      (1 : ℕ) < [(0:ℚ), 0].length ∧
      get_sampled_image2 [0, 0] [0] [0, 0] [some 1, some 1] 0 1 1 0 1 1 0 1 1
        (fun _ => 0) (fun _ => 0) none true =
      ((get_sampled_image2 ([(0:ℚ), 0].take 1) ([(0:ℚ)].take 1)
          ([(0:ℚ), 0].take 1) ([some (1:ℚ), some 1].take 1) 0 1 1 0 1 1 0 1 1
          (fun _ => 0) (fun _ => 0) none true).1, some PErr.indexError)) := by
  refine ⟨⟨le_refl _, ?_⟩, rfl, by norm_num, ?_⟩
  · exact (length_mismatch_amended [0] [0] [0] [some 1] 0 1 1 0 1 1 0 1 1
      (fun _ => 0) (fun _ => 0) true).1 (by norm_num) (by norm_num) (by norm_num)
  · exact (length_mismatch_amended [0, 0] [0] [0, 0] [some 1, some 1] 0 1 1
      0 1 1 0 1 1 (fun _ => 0) (fun _ => 0) true).2 1 rfl (by norm_num)

/-! ### C6: auxiliary array shorter than the sample sequence -/

/-- The box-path body raises `RuntimeError` exactly at the first index with
no extent entry, mutating nothing. -/
lemma image2_body_ext_err (xmin xres : ℚ) (nx : ℤ) (ymin yres : ℚ) (ny : ℤ)
    (zmin zres : ℚ) (nz : ℤ) (ext : List ℚ) (skip : Bool) (i : ℕ)
    (s : ℚ × ℚ × ℚ × F) (gs : Grid ℚ × Grid ℚ) (h : ext.length ≤ i) :
    image2_body xmin xres nx ymin yres ny zmin zres nz (some ext) skip i s gs =
      (gs, some PErr.runtimeError) := by
  simp only [image2_body]
  rw [List.getElem?_eq_none h]

/-- The inverse-distance body raises `RuntimeError` exactly at the first
index with no radius entry, mutating nothing. -/
lemma inv_dist_body_err (xmin xres : ℚ) (nx : ℤ) (ymin yres : ℚ) (ny : ℤ)
    (zmin zres : ℚ) (nz : ℤ) (radius : List ℚ) (skip : Bool) (i : ℕ)
    (s : ℚ × ℚ × ℚ × F) (gr : Grid ℝ × Grid ℝ) (h : radius.length ≤ i) :
    inv_dist_body xmin xres nx ymin yres ny zmin zres nz radius skip i s gr =
      (gr, some PErr.runtimeError) := by
  simp only [inv_dist_body]
  rw [List.getElem?_eq_none h]

/-- The inverse-distance body never raises while the radius entry exists. -/
lemma inv_dist_body_no_err (xmin xres : ℚ) (nx : ℤ) (ymin yres : ℚ) (ny : ℤ)
    (zmin zres : ℚ) (nz : ℤ) (radius : List ℚ) (skip : Bool) (i : ℕ)
    (s : ℚ × ℚ × ℚ × F) (gr : Grid ℝ × Grid ℝ) (h : i < radius.length) :
    (inv_dist_body xmin xres nx ymin yres ny zmin zres nz radius skip i s gr).2 =
      none := by
  simp only [inv_dist_body]
  rw [List.getElem?_eq_getElem h]

/-- C6: a call of the box-splat accumulator whose extent array is shorter
than the sample sequence, or of the inverse-distance accumulator whose radius
array is shorter, raises `RuntimeError` at the first sample index needing the
missing auxiliary entry (index `len(extent)` resp. `len(radius)`), and the
grid mutations already applied for the earlier samples remain: the result
grids equal those of the run truncated at that index (no rollback).  For the
box variant the earlier samples are assumed to process without their own
error (`hpre`); the inverse-distance path cannot error earlier. -/
theorem aux_array_short (sx sy sz : List ℚ) (sv : List F) (xmin xres : ℚ)
    (nx : ℤ) (ymin yres : ℚ) (ny : ℤ) (zmin zres : ℚ) (nz : ℤ)
    (imagenum imagesum : Grid ℚ) (hnum hsum : Grid ℝ) (ext radius : List ℚ)
    (skip : Bool) (hly : sy.length = sx.length) (hlz : sz.length = sx.length)
    (hlv : sv.length = sx.length) :
    (ext.length < sx.length →
      (get_sampled_image2 (sx.take ext.length) (sy.take ext.length)
        (sz.take ext.length) (sv.take ext.length) xmin xres nx ymin yres ny
        zmin zres nz imagenum imagesum (some ext) skip).2 = none →
      get_sampled_image2 sx sy sz sv xmin xres nx ymin yres ny zmin zres nz
        imagenum imagesum (some ext) skip =
      ((get_sampled_image2 (sx.take ext.length) (sy.take ext.length)
        (sz.take ext.length) (sv.take ext.length) xmin xres nx ymin yres ny
        zmin zres nz imagenum imagesum (some ext) skip).1,
       some PErr.runtimeError)) ∧
    (radius.length < sx.length →
      (get_sampled_image_inv_dist (sx.take radius.length)
        (sy.take radius.length) (sz.take radius.length) (sv.take radius.length)
        xmin xres nx ymin yres ny zmin zres nz hnum hsum radius skip).2 = none ∧
      get_sampled_image_inv_dist sx sy sz sv xmin xres nx ymin yres ny
        zmin zres nz hnum hsum radius skip =
      ((get_sampled_image_inv_dist (sx.take radius.length)
        (sy.take radius.length) (sz.take radius.length) (sv.take radius.length)
        xmin xres nx ymin yres ny zmin zres nz hnum hsum radius skip).1,
       some PErr.runtimeError)) := by
  constructor
  · intro hk hpre
    simp only [get_sampled_image2] at hpre ⊢
    rw [List.length_take, min_eq_left hk.le] at hpre ⊢
    rw [run_samples_congr (sample_read (sx.take ext.length) (sy.take ext.length)
        (sz.take ext.length) (sv.take ext.length)) (sample_read sx sy sz sv)
        (image2_body xmin xres nx ymin yres ny zmin zres nz (some ext) skip)
        (List.range ext.length) (imagesum, imagenum)
        (fun i hi => sample_read_take sx sy sz sv ext.length i
          (List.mem_range.mp hi))] at hpre ⊢
    rw [show sx.length = ext.length + (sx.length - ext.length) from by omega,
      List.range_add, run_samples_append]
    rcases hT : run_samples (sample_read sx sy sz sv)
        (image2_body xmin xres nx ymin yres ny zmin zres nz (some ext) skip)
        (List.range ext.length) (imagesum, imagenum) with ⟨g', e⟩
    rw [hT] at hpre
    obtain rfl : e = none := hpre
    dsimp only
    rw [show sx.length - ext.length = (sx.length - ext.length - 1) + 1 from
      by omega, List.range_succ_eq_map]
    simp only [List.map_cons, Nat.add_zero]
    rw [run_samples]
    have hsome := sample_read_isSome sx sy sz sv ext.length hk (by omega)
      (by omega) (by omega)
    rcases hsrk : sample_read sx sy sz sv ext.length with _ | a
    · rw [hsrk] at hsome
      exact absurd hsome (by simp)
    · dsimp only
      rw [image2_body_ext_err xmin xres nx ymin yres ny zmin zres nz ext skip
        ext.length a g' (le_refl _)]
  · intro hk
    have htr : (run_samples (sample_read sx sy sz sv)
        (inv_dist_body xmin xres nx ymin yres ny zmin zres nz radius skip)
        (List.range radius.length) (hsum, hnum)).2 = none :=
      run_samples_no_err _ _ _ _
        (fun i hi => sample_read_isSome sx sy sz sv i
          (lt_trans (List.mem_range.mp hi) hk) (by
            have := List.mem_range.mp hi
            omega) (by
            have := List.mem_range.mp hi
            omega) (by
            have := List.mem_range.mp hi
            omega))
        (fun i a g'' hi => inv_dist_body_no_err xmin xres nx ymin yres ny
          zmin zres nz radius skip i a g'' (List.mem_range.mp hi))
    have hcong : run_samples (sample_read (sx.take radius.length)
        (sy.take radius.length) (sz.take radius.length) (sv.take radius.length))
        (inv_dist_body xmin xres nx ymin yres ny zmin zres nz radius skip)
        (List.range radius.length) (hsum, hnum) =
        run_samples (sample_read sx sy sz sv)
        (inv_dist_body xmin xres nx ymin yres ny zmin zres nz radius skip)
        (List.range radius.length) (hsum, hnum) :=
      run_samples_congr _ _ _ _ _
        (fun i hi => sample_read_take sx sy sz sv radius.length i
          (List.mem_range.mp hi))
    constructor
    · simp only [get_sampled_image_inv_dist]
      rw [List.length_take, min_eq_left hk.le, hcong]
      exact htr
    · simp only [get_sampled_image_inv_dist]
      rw [List.length_take, min_eq_left hk.le, hcong]
      rw [show sx.length = radius.length + (sx.length - radius.length) from
        by omega, List.range_add, run_samples_append]
      rcases hT : run_samples (sample_read sx sy sz sv)
          (inv_dist_body xmin xres nx ymin yres ny zmin zres nz radius skip)
          (List.range radius.length) (hsum, hnum) with ⟨g', e⟩
      rw [hT] at htr
      obtain rfl : e = none := htr
      dsimp only
      rw [show sx.length - radius.length = (sx.length - radius.length - 1) + 1
        from by omega, List.range_succ_eq_map]
      simp only [List.map_cons, Nat.add_zero]
      rw [run_samples]
      have hsome := sample_read_isSome sx sy sz sv radius.length hk (by omega)
        (by omega) (by omega)
      rcases hsrk : sample_read sx sy sz sv radius.length with _ | a
      · rw [hsrk] at hsome
        exact absurd hsome (by simp)
      · dsimp only
        rw [inv_dist_body_err xmin xres nx ymin yres ny zmin zres nz radius
          skip radius.length a g' (le_refl _)]

/-- Witness for C6 with one sample and empty auxiliary arrays: both
accumulators error immediately at index 0, leaving the zero grids. -/
theorem aux_array_short_witness :
    (([] : List ℚ).length < [(0:ℚ)].length ∧
      (get_sampled_image2 ([(0:ℚ)].take 0) ([(0:ℚ)].take 0) ([(0:ℚ)].take 0)
        ([some (1:ℚ)].take 0) 0 1 1 0 1 1 0 1 1 (fun _ => 0) (fun _ => 0)
        (some []) true).2 = none ∧
      get_sampled_image2 [0] [0] [0] [some 1] 0 1 1 0 1 1 0 1 1
        (fun _ => 0) (fun _ => 0) (some []) true =
      ((get_sampled_image2 ([(0:ℚ)].take 0) ([(0:ℚ)].take 0) ([(0:ℚ)].take 0)
        ([some (1:ℚ)].take 0) 0 1 1 0 1 1 0 1 1 (fun _ => 0) (fun _ => 0)
        (some []) true).1, some PErr.runtimeError)) ∧
    ((get_sampled_image_inv_dist ([(0:ℚ)].take 0) ([(0:ℚ)].take 0)
        ([(0:ℚ)].take 0) ([some (1:ℚ)].take 0) 0 1 1 0 1 1 0 1 1
        (fun _ => 0) (fun _ => 0) [] true).2 = none ∧
      get_sampled_image_inv_dist [0] [0] [0] [some 1] 0 1 1 0 1 1 0 1 1
        (fun _ => 0) (fun _ => 0) [] true =
      ((get_sampled_image_inv_dist ([(0:ℚ)].take 0) ([(0:ℚ)].take 0)
        ([(0:ℚ)].take 0) ([some (1:ℚ)].take 0) 0 1 1 0 1 1 0 1 1
        (fun _ => 0) (fun _ => 0) [] true).1, some PErr.runtimeError)) := by
  have h := aux_array_short [0] [0] [0] [some 1] 0 1 1 0 1 1 0 1 1
    (fun _ => 0) (fun _ => 0) (fun _ => 0) (fun _ => 0) [] [] true rfl rfl rfl
  have hpre : (get_sampled_image2 ([(0:ℚ)].take 0) ([(0:ℚ)].take 0)
      ([(0:ℚ)].take 0) ([some (1:ℚ)].take 0) 0 1 1 0 1 1 0 1 1 (fun _ => 0)
      (fun _ => 0) (some []) true).2 = none := rfl
  exact ⟨⟨by norm_num, hpre, h.1 (by norm_num) hpre⟩, h.2 (by norm_num)⟩

end Gridfunctions
